import Mathlib

/-!
# Resource handler (`rh/main.go`): a shallow embedding

The development follows `rh/main.go`:

* the snapshot record `ResourceHandler` and its sub-records;
* a model of the part of Go's `time` package used by `getSystemUptime`
  (UTC wall clock, proleptic Gregorian calendar);
* `powerOfTen`, `getSystemMemory`, `getSystemUptime` as state-passing functions;
* `getCpuLoad` and `init` as small-step machines over an explicit schedule of
  goroutine events, with Go channel semantics for the error channels;
* the dispatch loop of `Run` as a step function per ticker event.

Floating point is kept abstract: every definition that touches a `float64` or a
`float32` takes a `FloatOps` record giving the conversions and operations the
source uses, so every theorem holds for any rounding behaviour.
-/

namespace Resourcer

/-! ## Data model (`rh/main.go`, lines 16-81) -/

/-- Go `error` values that are not nil; a Go `error` is an `Option GoError`. -/
abbrev GoError := String

/-- Information about the platform. -/
structure platform where
  Arch : String
  Os : String
  Platform : String
  Family : String
  Kernel : String
deriving DecidableEq, Repr

/-- Information on the Cpu. -/
structure cpuInfo (F64 : Type) where
  VendorId : String
  Mhz : F64
  CacheSize : Int
  Cores : Int
  Threads : Int
deriving DecidableEq, Repr

/-- The load information on a single Cpu core. -/
structure cpuCore (F32 : Type) where
  CoreNo : Int
  Load : F32
deriving DecidableEq, Repr

/-- The load on the CPU. -/
structure cpuLoad (F64 F32 : Type) where
  Usage : F64
  Loads : List (cpuCore F32)
deriving DecidableEq, Repr

/-- The information on the memory usage. -/
structure systemMemory (F32 : Type) where
  Unit : String
  Total : F32
  Available : F32
  Used : F32
deriving DecidableEq, Repr

/-- Information on current system resource usage. -/
structure systemLoad (F64 F32 : Type) where
  Cpu : cpuLoad F64 F32
  Memory : systemMemory F32
deriving DecidableEq, Repr

/-- The total time the system has been powered on. -/
structure systemUptime where
  Years : Int
  Months : Int
  Days : Int
  Hours : Int
  Minutes : Int
deriving DecidableEq, Repr

/-- The exported fields of `ResourceHandler`; the mutex, the context and the
error channel are part of the execution models below. -/
structure ResourceHandler (F64 F32 : Type) where
  Platform : platform
  Cpu : cpuInfo F64
  Loads : systemLoad F64 F32
  Uptime : systemUptime
deriving DecidableEq, Repr

/-- The floating-point conversions and operations used by the source. -/
structure FloatOps (F64 F32 : Type) where
  /-- Conversion `float64(x)` of a `uint64`. -/
  ofUint64 : Nat → F64
  /-- The value `math.Pow(10, float64(n))` (and `math.Pow(10, 3)` for `n = 3`). -/
  pow10 : Nat → F64
  /-- Division of two `float64` values. -/
  div : F64 → F64 → F64
  /-- Conversion `float32(x)` of a `float64`. -/
  toFloat32 : F64 → F32
  /-- The zero value of `float32`, which `make` fills a fresh slice with. -/
  zero32 : F32

/-- Exact arithmetic as one instance of the floating-point operations. -/
def exactFloat : FloatOps ℚ ℚ where
  ofUint64 := fun n => (n : ℚ)
  pow10 := fun n => (10 : ℚ) ^ n
  div := fun a b => a / b
  toFloat32 := fun a => a
  zero32 := 0

/-! ## The provider (gopsutil) results -/

/-- The fields of `host.InfoStat` read by `getPlatformInformation`. -/
structure InfoStat where
  KernelArch : String
  Platform : String
  PlatformVersion : String
  KernelVersion : String
  PlatformFamily : String
deriving DecidableEq, Repr

/-- The fields of `cpu.InfoStat` read by `getCpuInformation`. -/
structure CpuInfoStat (F64 : Type) where
  VendorID : String
  CacheSize : Int
  Mhz : F64
deriving DecidableEq, Repr

/-- The fields of `mem.VirtualMemoryStat` read by `getSystemMemory`. -/
structure VirtualMemoryStat (F64 : Type) where
  Total : Nat
  Available : Nat
  UsedPercent : F64
deriving DecidableEq, Repr

/-- One answer of the OS-statistics provider to each call the source makes. -/
structure Provider (F64 : Type) where
  /-- Result of `host.InfoWithContext`. -/
  hostInfo : Except GoError InfoStat
  /-- Result of `cpu.CountsWithContext(ctx, false)`. -/
  countsPhysical : Except GoError Int
  /-- Result of `cpu.CountsWithContext(ctx, true)`. -/
  countsLogical : Except GoError Int
  /-- Result of `cpu.InfoWithContext`. -/
  cpuInformation : Except GoError (List (CpuInfoStat F64))
  /-- Result of `cpu.PercentWithContext(ctx, time.Second, false)`. -/
  percentTotal : Except GoError (List F64)
  /-- Result of `cpu.PercentWithContext(ctx, time.Second, true)`. -/
  percentPerCpu : Except GoError (List F64)
  /-- Result of `mem.VirtualMemoryWithContext`. -/
  virtualMemory : Except GoError (VirtualMemoryStat F64)
  /-- Result of `host.UptimeWithContext` (a `uint64` number of seconds). -/
  uptime : Except GoError Nat

/-! ## Go's `time` package (UTC, proleptic Gregorian calendar) -/

/-- Nanoseconds in one second (`time.Second`). -/
def nsPerSec : Int := 1000000000

/-- Nanoseconds in one hour (`time.Hour`). -/
def nsPerHour : Int := 3600 * nsPerSec

/-- Two's-complement wrap of an integer into the range of `int64`. -/
def wrapInt64 (z : Int) : Int := (z + 2 ^ 63) % 2 ^ 64 - 2 ^ 63

/-- Saturation of an integer into the range of `int64` (as `Time.Sub` does). -/
def clampInt64 (z : Int) : Int :=
  if z < -(2 ^ 63) then -(2 ^ 63) else if 2 ^ 63 - 1 < z then 2 ^ 63 - 1 else z

/-- A `time.Time` in the UTC location: nanoseconds since the Unix epoch. The
source reads `time.Now()` in the local zone of the host; the calendar and clock
fields below are those of a host whose local zone is UTC. -/
structure Time where
  ns : Int
deriving DecidableEq, Repr

/-- Day number (days since 1970-01-01) of the civil date `y-m-d`, `1 ≤ m ≤ 12`;
`d` may lie outside the month and then counts on from its first day. -/
def daysFromCivil (y m d : Int) : Int :=
  let y1 := if m ≤ 2 then y - 1 else y
  let era := y1 / 400
  let yoe := y1 - era * 400
  let mp := if 2 < m then m - 3 else m + 9
  let doy := (153 * mp + 2) / 5 + d - 1
  let doe := yoe * 365 + yoe / 4 - yoe / 100 + doy
  era * 146097 + doe - 719468

/-- Civil date `(year, month, day)` of a day number (days since 1970-01-01). -/
def civilFromDays (z : Int) : Int × Int × Int :=
  let z1 := z + 719468
  let era := z1 / 146097
  let doe := z1 - era * 146097
  let yoe := (doe - doe / 1460 + doe / 36524 - doe / 146096) / 365
  let doy := doe - (365 * yoe + yoe / 4 - yoe / 100)
  let mp := (5 * doy + 2) / 153
  let d := doy - (153 * mp + 2) / 5 + 1
  let m := if mp < 10 then mp + 3 else mp - 9
  (if m ≤ 2 then yoe + era * 400 + 1 else yoe + era * 400, m, d)

/-- Whole seconds since the Unix epoch (rounded down). -/
def Time.unixSec (t : Time) : Int := t.ns / nsPerSec

/-- Day number of the instant. -/
def Time.dayNumber (t : Time) : Int := t.unixSec / 86400

/-- Seconds elapsed since midnight. -/
def Time.secOfDay (t : Time) : Int := t.unixSec % 86400

/-- Method `Time.Year`. -/
def Time.Year (t : Time) : Int := (civilFromDays t.dayNumber).1

/-- Method `Time.Month`, January being 1. -/
def Time.Month (t : Time) : Int := (civilFromDays t.dayNumber).2.1

/-- Method `Time.Day`. -/
def Time.Day (t : Time) : Int := (civilFromDays t.dayNumber).2.2

/-- Method `Time.Hour`. -/
def Time.Hour (t : Time) : Int := t.secOfDay / 3600

/-- Method `Time.Minute`. -/
def Time.Minute (t : Time) : Int := t.secOfDay % 3600 / 60

/-- Method `Time.Second`. -/
def Time.Second (t : Time) : Int := t.secOfDay % 60

/-- Method `Time.Nanosecond`. -/
def Time.Nanosecond (t : Time) : Int := t.ns % nsPerSec

/-- Method `Time.Add`; the duration is in nanoseconds. -/
def Time.Add (t : Time) (d : Int) : Time := ⟨t.ns + d⟩

/-- Function `time.Date` in UTC. Values outside their usual ranges are
normalised: the month into the year, everything else by counting on. -/
def Date (year month day hour min sec nsec : Int) : Time :=
  let y := year + (month - 1) / 12
  let m := (month - 1) % 12 + 1
  let days := daysFromCivil y m 1 + (day - 1)
  ⟨(days * 86400 + hour * 3600 + min * 60 + sec) * nsPerSec + nsec⟩

/-- Method `Time.AddDate`. -/
def Time.AddDate (t : Time) (years months days : Int) : Time :=
  Date (t.Year + years) (t.Month + months) (t.Day + days)
    t.Hour t.Minute t.Second t.Nanosecond

/-- Method `Time.Sub`: the duration `t - u`, saturated to `int64` nanoseconds. -/
def Time.Sub (t u : Time) : Int := clampInt64 (t.ns - u.ns)

/-- The expression `int(d.Hours() / 24)` for a duration `d`, taken as the number of
whole days in `d`, rounded toward zero. The source computes the quotient in
`float64`; the two agree when `d` is a whole number of seconds, which is the
case in `getSystemUptime` as long as `time.Second * time.Duration(up)` does not
wrap (an uptime below `2 ^ 63 / 10 ^ 9` seconds, about 292 years). For a
wrapped product the `float64` quotient may round up to the next integer, which
this definition does not follow. -/
def wholeDays (d : Int) : Int := Int.tdiv d (24 * nsPerHour)

/-! ## The uptime sampler (`getSystemUptime`, lines 415-470) -/

/-- Lines 427-463 of `getSystemUptime`: the breakdown computed from the
provider's uptime `up` (a `uint64`) and `now`. -/
def uptimeBreakdown (up : Nat) (now : Time) : systemUptime :=
  let then_ := now.Add (wrapInt64 (-nsPerSec * wrapInt64 (up : Int)))
  let years := now.Year - then_.Year
  let months := now.Month - then_.Month
  let days := now.Day - then_.Day
  let hours := now.Hour - then_.Hour
  let minutes := now.Minute - then_.Minute
  -- Adjust for negative values in minutes
  let hours := if minutes < 0 then hours - 1 else hours
  let minutes := if minutes < 0 then minutes + 60 else minutes
  -- Adjust for negative values in hours
  let days := if hours < 0 then days - 1 else days
  let hours := if hours < 0 then hours + 24 else hours
  -- Adjust for negative values in days
  let lastMonth := now.AddDate 0 1 (-now.Day)
  let months := if days < 0 then months + 1 else months
  let days := if days < 0 then days + wholeDays (then_.Sub lastMonth) else days
  -- Adjust for negative values in months
  let years := if months < 0 then years + 1 else years
  let months := if months < 0 then months + 12 else months
  { Years := years, Months := months, Days := days, Hours := hours, Minutes := minutes }

/-- The sampler `getSystemUptime`: returns the error of the provider call, or
stores the breakdown in `Uptime` and returns nil. -/
def getSystemUptime {F64 F32 : Type} (p : Provider F64) (now : Time)
    (r : ResourceHandler F64 F32) : Option GoError × ResourceHandler F64 F32 :=
  match p.uptime with
  | .error err => (some err, r)
  | .ok up => (none, { r with Uptime := uptimeBreakdown up now })

/-! ## The unit scaler and the memory sampler (lines 300-309, 364-412) -/

/-- Function `powerOfTen`: the number of decimal digits of `input`, minus one. -/
def powerOfTen (input : Nat) : Nat :=
  let inputStr := Nat.toDigits 10 input
  let numDigits := inputStr.length
  numDigits - 1

/-- The sampler `getSystemMemory`: returns the error of the provider call, or
stores the scaled figures in `Loads.Memory` and returns nil. -/
def getSystemMemory {F64 F32 : Type} (fo : FloatOps F64 F32) (p : Provider F64)
    (r : ResourceHandler F64 F32) : Option GoError × ResourceHandler F64 F32 :=
  match p.virtualMemory with
  | .error err => (some err, r)
  | .ok mem =>
    let powTen := powerOfTen mem.Total
    let scaled : F64 × F64 × String :=
      match powTen with
      | 6 => (fo.div (fo.ofUint64 mem.Total) (fo.pow10 powTen),
              fo.div (fo.ofUint64 mem.Available) (fo.pow10 powTen), "mb")
      | 9 => (fo.div (fo.ofUint64 mem.Total) (fo.pow10 powTen),
              fo.div (fo.ofUint64 mem.Available) (fo.pow10 powTen), "gb")
      | _ => (fo.div (fo.ofUint64 mem.Total) (fo.pow10 3),
              fo.div (fo.ofUint64 mem.Available) (fo.pow10 3), "kb")
    let sysMem : systemMemory F32 :=
      { Total := fo.toFloat32 scaled.1
        Available := fo.toFloat32 scaled.2.1
        Used := fo.toFloat32 mem.UsedPercent
        Unit := scaled.2.2 }
    (none, { r with Loads := { r.Loads with Memory := sysMem } })

/-! ## Goroutines and channels -/

/-- How the body of a goroutine ends: it hands an error value (nil or not) to
its channel, leaving the snapshot `r`, or it panics on an index out of range. -/
inductive TaskResult (σ : Type) where
  | done (err : Option GoError) (r : σ)
  | panicked
deriving DecidableEq, Repr

/-- Where the calling goroutine of `getCpuLoad` or `init` stands: still inside
its `for err := range ch` loop, or returned with an error value. -/
inductive MainStatus where
  | running
  | returned (err : Option GoError)
deriving DecidableEq, Repr

/-- One receive of `for err := range ch { if err != nil { return err } }` on
a channel holding `buf` (oldest first): a non-nil value makes the function
return it, a nil value is dropped, an empty closed channel ends the loop and
the function returns nil, an empty open channel leaves the receiver waiting. -/
def rangeRecv (buf : List (Option GoError)) (closed : Bool) :
    List (Option GoError) × MainStatus :=
  match buf with
  | some err :: rest => (rest, .returned (some err))
  | none :: rest => (rest, .running)
  | [] => if closed then ([], .returned none) else ([], .running)

/-! ## The CPU-load sampler (`getCpuLoad`, lines 311-362) -/

/-- First goroutine of `getCpuLoad` (lines 316-328), run under the mutex. -/
def cpuUsageTask {F64 F32 : Type} (p : Provider F64) (r : ResourceHandler F64 F32) :
    TaskResult (ResourceHandler F64 F32) :=
  match p.percentTotal with
  | .error err => .done (some err) r
  | .ok usage =>
    match usage with
    | [] => .panicked
    | u :: _ =>
      .done none { r with Loads := { r.Loads with Cpu := { r.Loads.Cpu with Usage := u } } }

/-- Lines 341-350: a slice of `len(loads)` zero records, filled in a loop over
the positions and values of `loads`. -/
def formatCores {F64 F32 : Type} (fo : FloatOps F64 F32) (loads : List F64) :
    List (cpuCore F32) :=
  let cores : List (cpuCore F32) :=
    List.replicate loads.length { CoreNo := 0, Load := fo.zero32 }
  loads.enum.foldl
    (fun cores cl => cores.set cl.1 { CoreNo := (cl.1 : Int), Load := fo.toFloat32 cl.2 })
    cores

/-- Second goroutine of `getCpuLoad` (lines 330-354), run under the mutex. -/
def cpuLoadsTask {F64 F32 : Type} (fo : FloatOps F64 F32) (p : Provider F64)
    (r : ResourceHandler F64 F32) : TaskResult (ResourceHandler F64 F32) :=
  match p.percentPerCpu with
  | .error err => .done (some err) r
  | .ok loads =>
    .done none
      { r with Loads := { r.Loads with Cpu := { r.Loads.Cpu with Loads := formatCores fo loads } } }

/-- The events of one call of `getCpuLoad`: either goroutine runs its body
(each holds the mutex from its first to its last statement), or the caller
tries one receive on `errch`. -/
inductive CpuLoadEv where
  | usage
  | loads
  | recv
deriving DecidableEq, Repr

/-- The state of one call of `getCpuLoad`. -/
structure CpuLoadState (F64 F32 : Type) where
  /-- The snapshot. -/
  r : ResourceHandler F64 F32
  /-- The values waiting in `errch` (capacity 2), oldest first. -/
  errch : List (Option GoError)
  /-- Whether `errch` has been closed. -/
  closed : Bool
  /-- The first goroutine has run. -/
  usageDone : Bool
  /-- The second goroutine has run. -/
  loadsDone : Bool
  /-- A goroutine has panicked, which ends the process. -/
  panicked : Bool
  /-- The caller. -/
  main : MainStatus
deriving DecidableEq, Repr

/-- The state in which `getCpuLoad` starts: `errch` made, both goroutines started. -/
def CpuLoadState.start {F64 F32 : Type} (r : ResourceHandler F64 F32) : CpuLoadState F64 F32 :=
  { r := r, errch := [], closed := false, usageDone := false, loadsDone := false,
    panicked := false, main := .running }

/-- One event of `getCpuLoad`. Nothing in the function closes `errch`. -/
def CpuLoadState.step {F64 F32 : Type} (fo : FloatOps F64 F32) (p : Provider F64)
    (s : CpuLoadState F64 F32) : CpuLoadEv → CpuLoadState F64 F32
  | .usage =>
    if s.panicked || s.usageDone then s else
      match cpuUsageTask p s.r with
      | .panicked => { s with usageDone := true, panicked := true }
      | .done err r => { s with usageDone := true, r := r, errch := s.errch ++ [err] }
  | .loads =>
    if s.panicked || s.loadsDone then s else
      match cpuLoadsTask fo p s.r with
      | .panicked => { s with loadsDone := true, panicked := true }
      | .done err r => { s with loadsDone := true, r := r, errch := s.errch ++ [err] }
  | .recv =>
    if s.panicked then s else
      match s.main with
      | .returned _ => s
      | .running =>
        { s with errch := (rangeRecv s.errch s.closed).1, main := (rangeRecv s.errch s.closed).2 }

/-- The function `getCpuLoad` under a schedule of its events. -/
def getCpuLoad {F64 F32 : Type} (fo : FloatOps F64 F32) (p : Provider F64)
    (r : ResourceHandler F64 F32) (sched : List CpuLoadEv) : CpuLoadState F64 F32 :=
  sched.foldl (CpuLoadState.step fo p) (CpuLoadState.start r)

/-! ## Start-up (`init` and its four tasks, lines 91-262) -/

/-- Function `getPlatformInformation`. -/
def getPlatformInformation {F64 F32 : Type} (p : Provider F64) (r : ResourceHandler F64 F32) :
    TaskResult (ResourceHandler F64 F32) :=
  match p.hostInfo with
  | .error err => .done (some err) r
  | .ok platformInfo =>
    .done none
      { r with Platform :=
          { Arch := platformInfo.KernelArch
            Platform := platformInfo.Platform
            Os := platformInfo.PlatformVersion
            Kernel := platformInfo.KernelVersion
            Family := platformInfo.PlatformFamily } }

/-- Function `getCpuCoreCount`. -/
def getCpuCoreCount {F64 F32 : Type} (p : Provider F64) (r : ResourceHandler F64 F32) :
    TaskResult (ResourceHandler F64 F32) :=
  match p.countsPhysical with
  | .error err => .done (some err) r
  | .ok cores => .done none { r with Cpu := { r.Cpu with Cores := cores } }

/-- Function `getCpuThreadCount`; line 223 assigns to `r.Cpu.Cores`. -/
def getCpuThreadCount {F64 F32 : Type} (p : Provider F64) (r : ResourceHandler F64 F32) :
    TaskResult (ResourceHandler F64 F32) :=
  match p.countsLogical with
  | .error err => .done (some err) r
  | .ok threads => .done none { r with Cpu := { r.Cpu with Cores := threads } }

/-- Function `getCpuInformation`; lines 251-253 read element 0 of the list. -/
def getCpuInformation {F64 F32 : Type} (p : Provider F64) (r : ResourceHandler F64 F32) :
    TaskResult (ResourceHandler F64 F32) :=
  match p.cpuInformation with
  | .error err => .done (some err) r
  | .ok cpuInfo =>
    match cpuInfo with
    | [] => .panicked
    | c :: _ =>
      .done none
        { r with Cpu := { r.Cpu with VendorId := c.VendorID, CacheSize := c.CacheSize, Mhz := c.Mhz } }

/-- The `switch id` of the goroutines started by `init`. -/
def initTask {F64 F32 : Type} (p : Provider F64) (id : Nat) (r : ResourceHandler F64 F32) :
    TaskResult (ResourceHandler F64 F32) :=
  match id with
  | 0 => getPlatformInformation p r
  | 1 => getCpuCoreCount p r
  | 2 => getCpuThreadCount p r
  | 3 => getCpuInformation p r
  | _ => .done none r

/-- The events of one call of `init`: the goroutine with a given `id` runs,
the goroutine that waits for the wait group and closes `errors` runs, or the
caller tries one receive on `errors`. -/
inductive InitEv where
  | task (id : Nat)
  | closer
  | recv
deriving DecidableEq, Repr

/-- The state of one call of `init`. -/
structure InitState (F64 F32 : Type) where
  /-- The snapshot. -/
  r : ResourceHandler F64 F32
  /-- The values waiting in `errors` (capacity 4), oldest first. -/
  errors : List (Option GoError)
  /-- Every error sent on `errors` so far, oldest first. -/
  sent : List GoError
  /-- Whether `errors` has been closed. -/
  closed : Bool
  /-- The ids of the goroutines that have called `wg.Done`. -/
  finished : List Nat
  /-- A goroutine has panicked, which ends the process. -/
  panicked : Bool
  /-- The caller. -/
  main : MainStatus
deriving DecidableEq, Repr

/-- The state in which `init` starts: `errors` made, the goroutines started. -/
def InitState.start {F64 F32 : Type} (r : ResourceHandler F64 F32) : InitState F64 F32 :=
  { r := r, errors := [], sent := [], closed := false, finished := [],
    panicked := false, main := .running }

/-- The wait group has come down to zero: all of the goroutines 0..3 are done. -/
def InitState.allDone {F64 F32 : Type} (s : InitState F64 F32) : Bool :=
  (List.range 4).all fun id => s.finished.contains id

/-- One event of `init`. A task sends on `errors` only an error that is not nil. -/
def InitState.step {F64 F32 : Type} (p : Provider F64)
    (s : InitState F64 F32) : InitEv → InitState F64 F32
  | .task id =>
    if s.panicked || s.finished.contains id || decide (4 ≤ id) then s else
      match initTask p id s.r with
      | .panicked => { s with panicked := true }
      | .done none r => { s with r := r, finished := id :: s.finished }
      | .done (some err) r =>
        { s with r := r, finished := id :: s.finished,
                 errors := s.errors ++ [some err], sent := s.sent ++ [err] }
  | .closer =>
    if s.panicked || s.closed || !s.allDone then s else { s with closed := true }
  | .recv =>
    if s.panicked then s else
      match s.main with
      | .returned _ => s
      | .running =>
        { s with errors := (rangeRecv s.errors s.closed).1,
                 main := (rangeRecv s.errors s.closed).2 }

/-- The function `init` under a schedule of its events. -/
def init {F64 F32 : Type} (p : Provider F64) (r : ResourceHandler F64 F32)
    (sched : List InitEv) : InitState F64 F32 :=
  sched.foldl (InitState.step p) (InitState.start r)

/-! ## The dispatch loop of `Run` (lines 269-293) -/

/-- The three tickers: `t1` (CPU load), `t2` (memory), `t3` (uptime). -/
inductive Tick where
  | t1
  | t2
  | t3
deriving DecidableEq, Repr

/-- Where the dispatch goroutine stands. -/
inductive LoopStatus where
  | selecting
  | blockedInGetCpuLoad
  | crashed
deriving DecidableEq, Repr

/-- The state of the dispatch loop. -/
structure RunState (F64 F32 : Type) where
  /-- The snapshot. -/
  r : ResourceHandler F64 F32
  /-- The errors handed to the monitoring loop through `r.errCh`. -/
  errCh : List GoError
  /-- The lines given to `log.Println`. -/
  logged : List String
  /-- The dispatch goroutine. -/
  status : LoopStatus
deriving DecidableEq, Repr

/-- One firing of a ticker in the `select` of `Run`. The call of `getCpuLoad`
on `t1` runs under the schedule `sched`. -/
def dispatch {F64 F32 : Type} (fo : FloatOps F64 F32) (p : Provider F64) (now : Time)
    (sched : List CpuLoadEv) (s : RunState F64 F32) : Tick → RunState F64 F32
  | .t1 =>
    match s.status with
    | .selecting =>
      let c := getCpuLoad fo p s.r sched
      if c.panicked then { s with r := c.r, status := .crashed } else
        match c.main with
        | .returned (some err) => { s with r := c.r, errCh := s.errCh ++ [err] }
        | .returned none => { s with r := c.r }
        | .running => { s with r := c.r, status := .blockedInGetCpuLoad }
    | _ => s
  | .t2 =>
    match s.status with
    | .selecting => { s with logged := s.logged ++ ["update memory"] }
    | _ => s
  | .t3 =>
    match s.status with
    | .selecting => { s with r := (getSystemUptime p now s.r).2 }
    | _ => s

/-! ## The spec's reconstruction of the boot time -/

/-- The spec's `T' = N - (years, months, days, hours, minutes)`, applied as a
calendar subtraction: the date fields through `AddDate`, the clock fields as a
duration. -/
def reconstructBoot (now : Time) (u : systemUptime) : Time :=
  (now.AddDate (-u.Years) (-u.Months) (-u.Days)).Add
    (-(u.Hours * nsPerHour + u.Minutes * 60 * nsPerSec))

/-- A timestamp truncated to the minute. -/
def Time.truncMinute (t : Time) : Time := ⟨t.ns - t.ns % (60 * nsPerSec)⟩

/-! ## Concrete inputs -/

/-- The handler made by `NewHandler`: every exported field has its zero value. -/
def NewHandler : ResourceHandler ℚ ℚ :=
  { Platform := { Arch := "", Os := "", Platform := "", Family := "", Kernel := "" }
    Cpu := { VendorId := "", Mhz := 0, CacheSize := 0, Cores := 0, Threads := 0 }
    Loads := { Cpu := { Usage := 0, Loads := [] },
               Memory := { Unit := "", Total := 0, Available := 0, Used := 0 } }
    Uptime := { Years := 0, Months := 0, Days := 0, Hours := 0, Minutes := 0 } }

/-- A provider whose every call succeeds: 4 cores, 8 threads, 8 GB of memory,
31 days of uptime. -/
def healthyProvider : Provider ℚ :=
  { hostInfo := .ok { KernelArch := "x86_64", Platform := "ubuntu", PlatformVersion := "22.04",
                      KernelVersion := "5.15.0", PlatformFamily := "debian" }
    countsPhysical := .ok 4
    countsLogical := .ok 8
    cpuInformation := .ok [{ VendorID := "GenuineIntel", CacheSize := 8192, Mhz := 3200 }]
    percentTotal := .ok [50]
    percentPerCpu := .ok [1 / 10, 1 / 2, 9 / 10]
    virtualMemory := .ok { Total := 8000000000, Available := 2000000000, UsedPercent := 75 }
    uptime := .ok 2678400 }

/-- A provider like `healthyProvider` but for its memory figures. -/
def memoryProvider (total available : Nat) (usedPercent : ℚ) : Provider ℚ :=
  { healthyProvider with
    virtualMemory := .ok { Total := total, Available := available, UsedPercent := usedPercent } }

/-- A provider like `healthyProvider` but for its uptime. -/
def uptimeProvider (up : Nat) : Provider ℚ :=
  { healthyProvider with uptime := .ok up }

/-- A provider like `healthyProvider` but for its per-core call, which fails. -/
def failingPerCpuProvider : Provider ℚ :=
  { healthyProvider with percentPerCpu := .error "per-core call failed" }

/-- A provider like `healthyProvider` but for its two counting calls, which fail. -/
def failingCountsProvider : Provider ℚ :=
  { healthyProvider with
    countsPhysical := .error "core count failed"
    countsLogical := .error "thread count failed" }

/-- A provider like `healthyProvider` but for its CPU information call, which
returns an empty list with a nil error. -/
def emptyInfoProvider : Provider ℚ :=
  { healthyProvider with cpuInformation := .ok [] }

/-- The dispatch loop as `Run` enters it. -/
def RunState.start {F64 F32 : Type} (r : ResourceHandler F64 F32) : RunState F64 F32 :=
  { r := r, errCh := [], logged := [], status := .selecting }

/-! ## Invariants of the schedules -/

/-- What holds along every schedule of `getCpuLoad` whose goroutines end with
the error values `eu` (aggregate usage) and `el` (per-core loads): nothing
panics, `errch` stays open and holds only values a finished goroutine has sent,
a non-nil value sent is still waiting while the caller is in its loop, and a
caller that has returned has returned a non-nil value sent by a goroutine. -/
structure CpuLoadInv {F64 F32 : Type} (eu el : Option GoError) (s : CpuLoadState F64 F32) : Prop where
  noPanic : s.panicked = false
  notClosed : s.closed = false
  vals : ∀ x ∈ s.errch, (x = eu ∧ s.usageDone = true) ∨ (x = el ∧ s.loadsDone = true)
  len : s.errch.length ≤ (if s.usageDone then 1 else 0) + (if s.loadsDone then 1 else 0)
  pendU : s.main = .running → s.usageDone = true → eu = none ∨ eu ∈ s.errch
  pendL : s.main = .running → s.loadsDone = true → el = none ∨ el ∈ s.errch
  ret : ∀ x, s.main = .returned x →
    ∃ e, x = some e ∧ ((eu = some e ∧ s.usageDone = true) ∨ (el = some e ∧ s.loadsDone = true))

/-- The fields of `Loads.Cpu` along every schedule of `getCpuLoad` started on
the snapshot `r0`. -/
structure CpuFieldInv {F64 F32 : Type} (fo : FloatOps F64 F32) (p : Provider F64)
    (r0 : ResourceHandler F64 F32) (s : CpuLoadState F64 F32) : Prop where
  usage : s.r.Loads.Cpu.Usage =
    match p.percentTotal with
    | .ok (u :: _) => if s.usageDone then u else r0.Loads.Cpu.Usage
    | _ => r0.Loads.Cpu.Usage
  loads : s.r.Loads.Cpu.Loads =
    match p.percentPerCpu with
    | .ok ls => if s.loadsDone then formatCores fo ls else r0.Loads.Cpu.Loads
    | .error _ => r0.Loads.Cpu.Loads

/-- The error of a provider result, nil when the call succeeded. -/
def exceptError {α : Type} : Except GoError α → Option GoError
  | .error e => some e
  | .ok _ => none

/-- The error of the provider call made by the start-up task `id`. -/
def taskError {F64 : Type} (p : Provider F64) : Nat → Option GoError
  | 0 => exceptError p.hostInfo
  | 1 => exceptError p.countsPhysical
  | 2 => exceptError p.countsLogical
  | 3 => exceptError p.cpuInformation
  | _ => none

/-- What holds along every schedule of `init` when no task panics: every error
sent comes from a finished task and every finished task that failed has sent its
error, `errors` is closed only after the four tasks, nothing has been received
while the caller is in its loop, a caller that has returned an error has
returned the first one sent, and a caller that has returned nil has found
`errors` closed with nothing ever sent. -/
structure InitInv {F64 F32 : Type} (p : Provider F64) (s : InitState F64 F32) : Prop where
  noPanic : s.panicked = false
  sentFrom : ∀ e ∈ s.sent, ∃ id ∈ s.finished, taskError p id = some e
  sentAll : ∀ id ∈ s.finished, ∀ e, taskError p id = some e → e ∈ s.sent
  finLt : ∀ id ∈ s.finished, id < 4
  closedAll : s.closed = true → ∀ id, id < 4 → id ∈ s.finished
  buf : s.main = .running → s.errors = s.sent.map some
  retSome : ∀ e, s.main = .returned (some e) → s.sent.head? = some e
  retNone : s.main = .returned none → s.closed = true ∧ s.sent = []

/-! ## Schedules -/

/-- A property kept by every step is kept by every schedule. -/
theorem foldl_invariant {σ ε : Type} (step : σ → ε → σ) (P : σ → Prop)
    (hstep : ∀ s ev, P s → P (step s ev)) :
    ∀ (sched : List ε) (s : σ), P s → P (sched.foldl step s) := by
  intro sched
  induction sched with
  | nil => intro s hs; exact hs
  | cons ev rest ih => intro s hs; exact ih (step s ev) (hstep s ev hs)

/-! ## The unit scaler -/

/-- The digits written by `Nat.toDigitsCore` with enough fuel: one more than
the base-10 logarithm. -/
theorem toDigitsCore_length_eq (fuel : Nat) :
    ∀ (n : Nat) (ds : List Char), n < fuel →
      (Nat.toDigitsCore 10 fuel n ds).length = ds.length + Nat.log 10 n + 1 := by
  induction fuel with
  | zero => intro n ds h; omega
  | succ fuel ih =>
    intro n ds h
    unfold Nat.toDigitsCore
    by_cases h0 : n / 10 = 0
    · have hn : n < 10 := by omega
      simp [h0, Nat.log_of_lt hn]
    · have hn : 10 ≤ n := by omega
      have hlt : n / 10 < fuel := by omega
      simp only [h0, if_false]
      rw [ih (n / 10) _ hlt, Nat.log_of_one_lt_of_le (by norm_num) hn]
      simp only [List.length_cons]
      omega

/-- The decimal representation of `n` has `Nat.log 10 n + 1` digits. -/
theorem toDigits_length_eq (n : Nat) : (Nat.toDigits 10 n).length = Nat.log 10 n + 1 := by
  unfold Nat.toDigits
  rw [toDigitsCore_length_eq (n + 1) n [] (Nat.lt_succ_self n)]
  simp

/-- The result of `powerOfTen` is the base-10 logarithm, rounded down. -/
theorem powerOfTen_eq_log (n : Nat) : powerOfTen n = Nat.log 10 n := by
  unfold powerOfTen
  simp only
  rw [toDigits_length_eq]
  simp

/-- The inputs on which `powerOfTen` returns a given positive magnitude. -/
theorem powerOfTen_eq_iff (n k : Nat) (hk : k ≠ 0) :
    powerOfTen n = k ↔ 10 ^ k ≤ n ∧ n < 10 ^ (k + 1) := by
  rw [powerOfTen_eq_log]
  exact Nat.log_eq_iff (Or.inl hk)

/-- C3 (memory unit scaling). When the provider returns `mem` without error,
`getSystemMemory` returns nil and stores, with magnitude `powerOfTen mem.Total`
(the number of decimal digits of `mem.Total` minus one, that is 6 exactly for
`10^6 ≤ Total < 10^7` and 9 exactly for `10^9 ≤ Total < 10^10`): for magnitude
6 the unit "mb" and divisor `10^6`, for magnitude 9 the unit "gb" and divisor
`10^9`, for every other magnitude the unit "kb" and divisor `10^3`; `Total` and
`Available` are divided by that one divisor and `Used` is the provider's
percentage. The four inputs of the spec give (10^6, "mb"), (10^9, "gb"),
(10^3, "kb") and (10^3, "kb"). -/
theorem getSystemMemory_unit_scaling {F64 F32 : Type} (fo : FloatOps F64 F32)
    (p : Provider F64) (mem : VirtualMemoryStat F64) (r : ResourceHandler F64 F32)
    (hmem : p.virtualMemory = .ok mem) :
    (powerOfTen mem.Total + 1 = (Nat.toDigits 10 mem.Total).length) ∧
    (powerOfTen mem.Total = 6 ↔ 10 ^ 6 ≤ mem.Total ∧ mem.Total < 10 ^ 7) ∧
    (powerOfTen mem.Total = 9 ↔ 10 ^ 9 ≤ mem.Total ∧ mem.Total < 10 ^ 10) ∧
    (getSystemMemory fo p r).1 = none ∧
    (powerOfTen mem.Total = 6 →
      (getSystemMemory fo p r).2.Loads.Memory =
        { Unit := "mb"
          Total := fo.toFloat32 (fo.div (fo.ofUint64 mem.Total) (fo.pow10 6))
          Available := fo.toFloat32 (fo.div (fo.ofUint64 mem.Available) (fo.pow10 6))
          Used := fo.toFloat32 mem.UsedPercent }) ∧
    (powerOfTen mem.Total = 9 →
      (getSystemMemory fo p r).2.Loads.Memory =
        { Unit := "gb"
          Total := fo.toFloat32 (fo.div (fo.ofUint64 mem.Total) (fo.pow10 9))
          Available := fo.toFloat32 (fo.div (fo.ofUint64 mem.Available) (fo.pow10 9))
          Used := fo.toFloat32 mem.UsedPercent }) ∧
    (powerOfTen mem.Total ≠ 6 → powerOfTen mem.Total ≠ 9 →
      (getSystemMemory fo p r).2.Loads.Memory =
        { Unit := "kb"
          Total := fo.toFloat32 (fo.div (fo.ofUint64 mem.Total) (fo.pow10 3))
          Available := fo.toFloat32 (fo.div (fo.ofUint64 mem.Available) (fo.pow10 3))
          Used := fo.toFloat32 mem.UsedPercent }) ∧
    (powerOfTen 1000000 = 6 ∧ powerOfTen 8000000000 = 9 ∧
      powerOfTen 512 = 2 ∧ powerOfTen 50000000 = 7) ∧
    (getSystemMemory exactFloat (memoryProvider 1000000 500000 50) NewHandler).2.Loads.Memory =
      { Unit := "mb", Total := 1000000 / 10 ^ 6, Available := 500000 / 10 ^ 6, Used := 50 } ∧
    (getSystemMemory exactFloat (memoryProvider 8000000000 2000000000 75) NewHandler).2.Loads.Memory =
      { Unit := "gb", Total := 8000000000 / 10 ^ 9, Available := 2000000000 / 10 ^ 9, Used := 75 } ∧
    (getSystemMemory exactFloat (memoryProvider 512 256 50) NewHandler).2.Loads.Memory =
      { Unit := "kb", Total := 512 / 10 ^ 3, Available := 256 / 10 ^ 3, Used := 50 } ∧
    (getSystemMemory exactFloat (memoryProvider 50000000 10000000 80) NewHandler).2.Loads.Memory =
      { Unit := "kb", Total := 50000000 / 10 ^ 3, Available := 10000000 / 10 ^ 3, Used := 80 } := by
  have h6 : powerOfTen 1000000 = 6 := by decide
  have h9 : powerOfTen 8000000000 = 9 := by decide
  have h2 : powerOfTen 512 = 2 := by decide
  have h7 : powerOfTen 50000000 = 7 := by decide
  refine ⟨?_, powerOfTen_eq_iff _ 6 (by decide), powerOfTen_eq_iff _ 9 (by decide), ?_, ?_, ?_, ?_,
    ⟨h6, h9, h2, h7⟩, ?_, ?_, ?_, ?_⟩
  · rw [powerOfTen_eq_log, toDigits_length_eq]
  · simp [getSystemMemory, hmem]
  · intro h
    simp [getSystemMemory, hmem, h]
  · intro h
    simp [getSystemMemory, hmem, h]
  · intro hn6 hn9
    simp only [getSystemMemory, hmem]
  · simp [getSystemMemory, memoryProvider, h6, exactFloat]
  · simp [getSystemMemory, memoryProvider, h9, exactFloat]
  · simp [getSystemMemory, memoryProvider, h2, exactFloat]
  · simp [getSystemMemory, memoryProvider, h7, exactFloat]

/-- C3 at `healthyProvider` (8 GB in total): the unit stored is "gb". -/
theorem getSystemMemory_unit_scaling_witness :
    healthyProvider.virtualMemory
        = .ok { Total := 8000000000, Available := 2000000000, UsedPercent := 75 } ∧
      powerOfTen 8000000000 = 9 ∧
      (getSystemMemory exactFloat healthyProvider NewHandler).2.Loads.Memory.Unit = "gb" :=
  have h9 : powerOfTen 8000000000 = 9 := by decide
  ⟨rfl, h9, by
    have h := (getSystemMemory_unit_scaling exactFloat healthyProvider
      { Total := 8000000000, Available := 2000000000, UsedPercent := 75 } NewHandler rfl).2.2.2.2.2.1 h9
    rw [h]⟩

/-! ## Per-core records -/

/-- The loop body of lines 343-350. -/
theorem fillCores_length {F64 F32 : Type} (fo : FloatOps F64 F32) (loads : List F64) :
    ∀ (k : Nat) (acc : List (cpuCore F32)),
      ((loads.enumFrom k).foldl
        (fun cores cl => cores.set cl.1 { CoreNo := (cl.1 : Int), Load := fo.toFloat32 cl.2 })
        acc).length = acc.length := by
  induction loads with
  | nil => intro k acc; rfl
  | cons x xs ih =>
    intro k acc
    simp only [List.enumFrom_cons, List.foldl_cons]
    rw [ih]
    simp

theorem fillCores_get {F64 F32 : Type} (fo : FloatOps F64 F32) (loads : List F64) :
    ∀ (k : Nat) (acc : List (cpuCore F32)) (i : Nat),
      ((loads.enumFrom k).foldl
        (fun cores cl => cores.set cl.1 { CoreNo := (cl.1 : Int), Load := fo.toFloat32 cl.2 })
        acc)[i]? =
      if k ≤ i ∧ i < acc.length then
        match loads[i - k]? with
        | some x => some { CoreNo := (i : Int), Load := fo.toFloat32 x }
        | none => acc[i]?
      else acc[i]? := by
  induction loads with
  | nil => intro k acc i; simp
  | cons x xs ih =>
    intro k acc i
    simp only [List.enumFrom_cons, List.foldl_cons]
    rw [ih]
    simp only [List.length_set]
    rcases Nat.lt_trichotomy i k with hlt | heq | hgt
    · have h1 : ¬ (k + 1 ≤ i ∧ i < acc.length) := by omega
      have h2 : ¬ (k ≤ i ∧ i < acc.length) := by omega
      rw [if_neg h1, if_neg h2, List.getElem?_set_ne (by omega)]
    · subst heq
      have h1 : ¬ (i + 1 ≤ i ∧ i < acc.length) := by omega
      rw [if_neg h1]
      by_cases hl : i < acc.length
      · rw [if_pos ⟨le_refl _, hl⟩]
        simp [hl]
      · rw [if_neg (by omega)]
        rw [List.getElem?_eq_none (by simpa using hl), List.getElem?_eq_none (by simpa using hl)]
    · have hik : i - k = (i - (k + 1)) + 1 := by omega
      rw [hik, List.getElem?_cons_succ, List.getElem?_set_ne (by omega)]
      by_cases hl : i < acc.length
      · rw [if_pos ⟨by omega, hl⟩, if_pos ⟨by omega, hl⟩]
      · rw [if_neg (by omega), if_neg (by omega)]

theorem formatCores_length {F64 F32 : Type} (fo : FloatOps F64 F32) (loads : List F64) :
    (formatCores fo loads).length = loads.length := by
  unfold formatCores List.enum
  simp only
  rw [fillCores_length]
  simp

theorem formatCores_get {F64 F32 : Type} (fo : FloatOps F64 F32) (loads : List F64)
    (i : Nat) (x : F64) (hx : loads[i]? = some x) :
    (formatCores fo loads)[i]? = some { CoreNo := (i : Int), Load := fo.toFloat32 x } := by
  have hi : i < loads.length := by
    rcases Nat.lt_or_ge i loads.length with h | h
    · exact h
    · rw [List.getElem?_eq_none h] at hx; cases hx
  unfold formatCores List.enum
  simp only
  rw [fillCores_get]
  simp [hi, hx]

/-- C8 (per-core ordering). When the provider returns `loads` without error,
the second goroutine of `getCpuLoad`, run from any state in which it is due,
stores in `Loads.Cpu.Loads` a sequence of the length of `loads` whose entry at
every position `i` has `CoreNo = i` and `Load = float32(loads[i])`; the loads
`[0.1, 0.5, 0.9]` give the core numbers 0, 1, 2 in that order with those loads. -/
theorem getCpuLoad_per_core_ordering {F64 F32 : Type} (fo : FloatOps F64 F32)
    (p : Provider F64) (loads : List F64) (s : CpuLoadState F64 F32)
    (hloads : p.percentPerCpu = .ok loads)
    (hdue : s.panicked = false ∧ s.loadsDone = false) :
    (s.step fo p .loads).r.Loads.Cpu.Loads.length = loads.length ∧
    (∀ (i : Nat) (x : F64), loads[i]? = some x →
      (s.step fo p .loads).r.Loads.Cpu.Loads[i]? =
        some { CoreNo := (i : Int), Load := fo.toFloat32 x }) ∧
    (∀ (i : Nat), loads.length ≤ i → (s.step fo p .loads).r.Loads.Cpu.Loads[i]? = none) ∧
    (getCpuLoad exactFloat healthyProvider NewHandler [.loads]).r.Loads.Cpu.Loads =
      [{ CoreNo := 0, Load := 1 / 10 }, { CoreNo := 1, Load := 1 / 2 },
       { CoreNo := 2, Load := 9 / 10 }] := by
  have hstep : (s.step fo p .loads).r.Loads.Cpu.Loads = formatCores fo loads := by
    simp [CpuLoadState.step, hdue.1, hdue.2, cpuLoadsTask, hloads]
  rw [hstep]
  refine ⟨formatCores_length fo loads, fun i x hx => formatCores_get fo loads i x hx, ?_, ?_⟩
  · intro i hi
    exact List.getElem?_eq_none (by rw [formatCores_length]; exact hi)
  · rfl

/-- C8 at `healthyProvider`, whose per-core loads are `[0.1, 0.5, 0.9]`. -/
theorem getCpuLoad_per_core_ordering_witness :
    healthyProvider.percentPerCpu = .ok [1 / 10, 1 / 2, 9 / 10] ∧
      ((CpuLoadState.start NewHandler).panicked = false ∧
        (CpuLoadState.start NewHandler).loadsDone = false) ∧
      ((CpuLoadState.start NewHandler).step exactFloat healthyProvider .loads).r.Loads.Cpu.Loads.length
        = 3 :=
  ⟨rfl, ⟨rfl, rfl⟩,
    (getCpuLoad_per_core_ordering exactFloat healthyProvider [1 / 10, 1 / 2, 9 / 10]
      (CpuLoadState.start NewHandler) rfl ⟨rfl, rfl⟩).1⟩

/-! ## The uptime calculator -/

/-- The clock fields of a timestamp lie in their usual ranges. -/
theorem time_clock_ranges (t : Time) :
    0 ≤ t.Hour ∧ t.Hour ≤ 23 ∧ 0 ≤ t.Minute ∧ t.Minute ≤ 59 := by
  unfold Time.Hour Time.Minute Time.secOfDay
  omega

/-- The clock fields of the breakdown: for every uptime and every current time
the minutes lie in [0, 59] and the hours in [0, 23]. -/
theorem uptimeBreakdown_clock_ranges (up : Nat) (now : Time) :
    0 ≤ (uptimeBreakdown up now).Minutes ∧ (uptimeBreakdown up now).Minutes ≤ 59 ∧
    0 ≤ (uptimeBreakdown up now).Hours ∧ (uptimeBreakdown up now).Hours ≤ 23 := by
  have h1 := time_clock_ranges now
  have h2 := time_clock_ranges (now.Add (wrapInt64 (-nsPerSec * wrapInt64 (up : Int))))
  unfold uptimeBreakdown
  simp only
  generalize now.Hour = a at h1
  generalize now.Minute = b at h1
  generalize (now.Add (wrapInt64 (-nsPerSec * wrapInt64 (up : Int)))).Hour = c at h2
  generalize (now.Add (wrapInt64 (-nsPerSec * wrapInt64 (up : Int)))).Minute = d at h2
  split_ifs <;> omega

set_option maxRecDepth 10000 in
/-- C1 (uptime round trip), at now = 2025-01-15T00:00:00Z and an uptime of 31
days (boot time 2024-12-15T00:00:00Z): `getSystemUptime` stores 2 years and 1
month, and taking these from `now` gives 2022-12-15T00:00:00Z, not the boot
time. -/
theorem getSystemUptime_round_trip_fails :
    healthyProvider.uptime = .ok 2678400 ∧
    (⟨1736899200000000000⟩ : Time) = Date 2025 1 15 0 0 0 0 ∧
    (⟨1736899200000000000⟩ : Time).Add (-(2678400 * nsPerSec)) = Date 2024 12 15 0 0 0 0 ∧
    (getSystemUptime healthyProvider ⟨1736899200000000000⟩ NewHandler).1 = none ∧
    (getSystemUptime healthyProvider ⟨1736899200000000000⟩ NewHandler).2.Uptime =
      { Years := 2, Months := 1, Days := 0, Hours := 0, Minutes := 0 } ∧
    reconstructBoot ⟨1736899200000000000⟩
        (getSystemUptime healthyProvider ⟨1736899200000000000⟩ NewHandler).2.Uptime =
      Date 2022 12 15 0 0 0 0 ∧
    (reconstructBoot ⟨1736899200000000000⟩
        (getSystemUptime healthyProvider ⟨1736899200000000000⟩ NewHandler).2.Uptime).truncMinute ≠
      ((⟨1736899200000000000⟩ : Time).Add (-(2678400 * nsPerSec))).truncMinute := by
  refine ⟨rfl, ?_, ?_, ?_, ?_, ?_, ?_⟩ <;> decide

set_option maxRecDepth 10000 in
/-- C2 (uptime range invariants), at now = 2024-03-01T00:00:00Z and an uptime
of one day (boot time 2024-02-29T00:00:00Z): `getSystemUptime` stores 2 months
and -59 days; and at now = 2024-12-01T00:00:00Z and an uptime of 305 days
(boot time 2024-01-31T00:00:00Z) it stores 12 months and -365 days. -/
theorem getSystemUptime_range_fails :
    (⟨1709251200000000000⟩ : Time) = Date 2024 3 1 0 0 0 0 ∧
    (⟨1709251200000000000⟩ : Time).Add (-(86400 * nsPerSec)) = Date 2024 2 29 0 0 0 0 ∧
    (getSystemUptime (uptimeProvider 86400) ⟨1709251200000000000⟩ NewHandler).2.Uptime =
      { Years := 0, Months := 2, Days := -59, Hours := 0, Minutes := 0 } ∧
    (⟨1733011200000000000⟩ : Time) = Date 2024 12 1 0 0 0 0 ∧
    (⟨1733011200000000000⟩ : Time).Add (-(26352000 * nsPerSec)) = Date 2024 1 31 0 0 0 0 ∧
    (getSystemUptime (uptimeProvider 26352000) ⟨1733011200000000000⟩ NewHandler).2.Uptime =
      { Years := 0, Months := 12, Days := -365, Hours := 0, Minutes := 0 } := by
  refine ⟨?_, ?_, ?_, ?_, ?_, ?_⟩ <;> decide

/-! ## Start-up: the fields written -/

/-- A task of `init` that ends leaves `Cpu.Threads` as it was. -/
theorem initTask_Threads {F64 F32 : Type} (p : Provider F64) (id : Nat)
    (r r' : ResourceHandler F64 F32) (e : Option GoError)
    (h : initTask p id r = .done e r') : r'.Cpu.Threads = r.Cpu.Threads := by
  unfold initTask getPlatformInformation getCpuCoreCount getCpuThreadCount getCpuInformation at h
  repeat' split at h
  all_goals first | (cases h; rfl) | (cases h)

/-- No event of `init` assigns to `Cpu.Threads`. -/
theorem initStep_Threads {F64 F32 : Type} (p : Provider F64) (s : InitState F64 F32)
    (ev : InitEv) : (s.step p ev).r.Cpu.Threads = s.r.Cpu.Threads := by
  cases ev with
  | task id =>
    unfold InitState.step
    simp only
    split
    · rfl
    · split
      · rfl
      · exact initTask_Threads p id _ _ _ (by assumption)
      · exact initTask_Threads p id _ _ _ (by assumption)
  | closer =>
    unfold InitState.step
    simp only
    split <;> rfl
  | recv =>
    unfold InitState.step
    simp only
    repeat' split
    all_goals rfl

/-- C6 (initialization populates every static field). No schedule of `init`
changes `Cpu.Threads`; with `healthyProvider` (4 physical cores, 8 logical
threads) and the tasks run in the order 0, 1, 2, 3, `init` returns nil with
`Cpu.Cores = 8` and `Cpu.Threads = 0`, and in the order 0, 2, 1, 3 with
`Cpu.Cores = 4` and `Cpu.Threads = 0`. -/
theorem init_never_writes_Threads :
    (∀ {F64 F32 : Type} (p : Provider F64) (r : ResourceHandler F64 F32) (sched : List InitEv),
      (init p r sched).r.Cpu.Threads = r.Cpu.Threads) ∧
    healthyProvider.countsPhysical = .ok 4 ∧ healthyProvider.countsLogical = .ok 8 ∧
    (init healthyProvider NewHandler
      [.task 0, .task 1, .task 2, .task 3, .closer, .recv]).main = .returned none ∧
    (init healthyProvider NewHandler
      [.task 0, .task 1, .task 2, .task 3, .closer, .recv]).r.Cpu.Cores = 8 ∧
    (init healthyProvider NewHandler
      [.task 0, .task 1, .task 2, .task 3, .closer, .recv]).r.Cpu.Threads = 0 ∧
    (init healthyProvider NewHandler
      [.task 0, .task 2, .task 1, .task 3, .closer, .recv]).main = .returned none ∧
    (init healthyProvider NewHandler
      [.task 0, .task 2, .task 1, .task 3, .closer, .recv]).r.Cpu.Cores = 4 ∧
    (init healthyProvider NewHandler
      [.task 0, .task 2, .task 1, .task 3, .closer, .recv]).r.Cpu.Threads = 0 := by
  refine ⟨?_, rfl, rfl, rfl, rfl, rfl, rfl, rfl, rfl⟩
  intro F64 F32 p r sched
  exact foldl_invariant (InitState.step p) (fun s => s.r.Cpu.Threads = r.Cpu.Threads)
    (fun s ev hs => (initStep_Threads p s ev).trans hs) sched (InitState.start r) rfl

/-- C10 (no out-of-range indexing). When the provider returns an empty list
with a nil error, `getCpuInformation` and the first goroutine of `getCpuLoad`
panic on element 0; `init` and `getCpuLoad` then end in a panic and the caller
has not returned. -/
theorem empty_list_index_panics :
    (∀ {F64 F32 : Type} (p : Provider F64) (r : ResourceHandler F64 F32),
      getCpuInformation { p with cpuInformation := .ok [] } r = .panicked) ∧
    (∀ {F64 F32 : Type} (p : Provider F64) (r : ResourceHandler F64 F32),
      cpuUsageTask { p with percentTotal := .ok [] } r = .panicked) ∧
    (init { healthyProvider with cpuInformation := .ok [] } NewHandler
      [.task 0, .task 1, .task 2, .task 3, .closer, .recv]).panicked = true ∧
    (init { healthyProvider with cpuInformation := .ok [] } NewHandler
      [.task 0, .task 1, .task 2, .task 3, .closer, .recv]).main = .running ∧
    (getCpuLoad exactFloat { healthyProvider with percentTotal := .ok [] } NewHandler
      [.usage, .loads, .recv, .recv]).panicked = true ∧
    (getCpuLoad exactFloat { healthyProvider with percentTotal := .ok [] } NewHandler
      [.usage, .loads, .recv, .recv]).main = .running := by
  refine ⟨?_, ?_, rfl, rfl, rfl, rfl⟩
  · intro F64 F32 p r
    rfl
  · intro F64 F32 p r
    rfl

/-! ## The dispatch loop -/

/-- C7 (scheduler dispatch). A firing of the memory ticker `t2` leaves the
snapshot as it was, whatever the provider returns: with `healthyProvider`
(8 GB in total) `getSystemMemory` would store 8 "gb", and after the `t2` step
`Loads.Memory` still has its zero value and only a line has been logged. -/
theorem dispatch_memory_tick_keeps_snapshot :
    (∀ {F64 F32 : Type} (fo : FloatOps F64 F32) (p : Provider F64) (now : Time)
        (sched : List CpuLoadEv) (s : RunState F64 F32),
      (dispatch fo p now sched s .t2).r = s.r) ∧
    (getSystemMemory exactFloat healthyProvider NewHandler).1 = none ∧
    (getSystemMemory exactFloat healthyProvider NewHandler).2.Loads.Memory.Unit = "gb" ∧
    (dispatch exactFloat healthyProvider ⟨1736899200000000000⟩ [] (RunState.start NewHandler)
      .t2).r.Loads.Memory = { Unit := "", Total := 0, Available := 0, Used := 0 } ∧
    (dispatch exactFloat healthyProvider ⟨1736899200000000000⟩ [] (RunState.start NewHandler)
      .t2).logged = ["update memory"] ∧
    (dispatch exactFloat healthyProvider ⟨1736899200000000000⟩ [] (RunState.start NewHandler)
      .t2).r.Loads.Memory ≠ (getSystemMemory exactFloat healthyProvider NewHandler).2.Loads.Memory := by
  have h9 : powerOfTen 8000000000 = 9 := by decide
  have hunit : (getSystemMemory exactFloat healthyProvider NewHandler).2.Loads.Memory.Unit = "gb" := by
    simp [getSystemMemory, healthyProvider, h9]
  refine ⟨?_, rfl, hunit, rfl, rfl, ?_⟩
  · intro F64 F32 fo p now sched s
    unfold dispatch
    simp only
    split <;> rfl
  · intro h
    have h2 := congrArg systemMemory.Unit h
    rw [hunit] at h2
    exact absurd h2 (by decide)

/-! ## The CPU-load sampler -/

/-- The invariant holds when `getCpuLoad` starts. -/
theorem cpuLoadInv_start {F64 F32 : Type} (eu el : Option GoError) (r : ResourceHandler F64 F32) :
    CpuLoadInv eu el (CpuLoadState.start r) := by
  refine ⟨rfl, rfl, ?_, ?_, ?_, ?_, ?_⟩ <;> simp [CpuLoadState.start]

/-- Every event of `getCpuLoad` keeps the invariant, when neither goroutine panics. -/
theorem cpuLoadInv_step {F64 F32 : Type} (fo : FloatOps F64 F32) (p : Provider F64)
    (eu el : Option GoError)
    (hU : ∀ r : ResourceHandler F64 F32, ∃ r', cpuUsageTask p r = .done eu r')
    (hL : ∀ r : ResourceHandler F64 F32, ∃ r', cpuLoadsTask fo p r = .done el r')
    (s : CpuLoadState F64 F32) (ev : CpuLoadEv) (h : CpuLoadInv eu el s) :
    CpuLoadInv eu el (s.step fo p ev) := by
  obtain ⟨hp, hc, hv, hlen, hpu, hpl, hret⟩ := h
  cases ev with
  | usage =>
    unfold CpuLoadState.step
    simp only [hp, Bool.false_or]
    cases hud : s.usageDone with
    | true => simpa using ⟨hp, hc, hv, hlen, hpu, hpl, hret⟩
    | false =>
      obtain ⟨r', hr'⟩ := hU s.r
      simp only [hr', Bool.false_eq_true, if_false]
      rw [hud] at hlen
      refine ⟨rfl, hc, ?_, ?_, ?_, ?_, ?_⟩
      · intro x hx
        simp only [List.mem_append, List.mem_singleton] at hx
        rcases hx with hx | hx
        · rcases hv x hx with h1 | h1
          · exact Or.inl ⟨h1.1, rfl⟩
          · exact Or.inr h1
        · exact Or.inl ⟨hx, rfl⟩
      · simp only [List.length_append, List.length_singleton, if_true]
        simp only [Bool.false_eq_true, if_false] at hlen
        omega
      · intro _ _
        exact Or.inr (by simp)
      · intro hm hl
        rcases hpl hm hl with h1 | h1
        · exact Or.inl h1
        · exact Or.inr (List.mem_append_left _ h1)
      · intro x hx
        obtain ⟨e, he, h1⟩ := hret x hx
        refine ⟨e, he, ?_⟩
        rcases h1 with h1 | h1
        · exact Or.inl ⟨h1.1, rfl⟩
        · exact Or.inr h1
  | loads =>
    unfold CpuLoadState.step
    simp only [hp, Bool.false_or]
    cases hld : s.loadsDone with
    | true => simpa using ⟨hp, hc, hv, hlen, hpu, hpl, hret⟩
    | false =>
      obtain ⟨r', hr'⟩ := hL s.r
      simp only [hr', Bool.false_eq_true, if_false]
      rw [hld] at hlen
      refine ⟨rfl, hc, ?_, ?_, ?_, ?_, ?_⟩
      · intro x hx
        simp only [List.mem_append, List.mem_singleton] at hx
        rcases hx with hx | hx
        · rcases hv x hx with h1 | h1
          · exact Or.inl h1
          · exact Or.inr ⟨h1.1, rfl⟩
        · exact Or.inr ⟨hx, rfl⟩
      · simp only [List.length_append, List.length_singleton, if_true]
        simp only [Bool.false_eq_true, if_false] at hlen
        omega
      · intro hm hu
        rcases hpu hm hu with h1 | h1
        · exact Or.inl h1
        · exact Or.inr (List.mem_append_left _ h1)
      · intro _ _
        exact Or.inr (by simp)
      · intro x hx
        obtain ⟨e, he, h1⟩ := hret x hx
        refine ⟨e, he, ?_⟩
        rcases h1 with h1 | h1
        · exact Or.inl h1
        · exact Or.inr ⟨h1.1, rfl⟩
  | recv =>
    unfold CpuLoadState.step
    simp only [hp, Bool.false_eq_true, if_false]
    cases hm : s.main with
    | returned x => simpa [hm] using ⟨hp, hc, hv, hlen, hpu, hpl, hret⟩
    | running =>
      simp only [hc]
      cases hch : s.errch with
      | nil =>
        simp only [rangeRecv, Bool.false_eq_true, if_false]
        rw [← hch, ← hm]
        exact ⟨rfl, rfl, hv, hlen, hpu, hpl, hret⟩
      | cons x rest =>
        rw [hch] at hv hlen hpu hpl
        cases x with
        | none =>
          simp only [rangeRecv]
          refine ⟨rfl, rfl, ?_, ?_, ?_, ?_, ?_⟩
          · intro y hy
            exact hv y (List.mem_cons_of_mem _ hy)
          · simp only [List.length_cons] at hlen
            dsimp only
            omega
          · intro _ hu
            rcases hpu hm hu with h1 | h1
            · exact Or.inl h1
            · rcases List.mem_cons.mp h1 with h2 | h2
              · exact Or.inl h2
              · exact Or.inr h2
          · intro _ hl
            rcases hpl hm hl with h1 | h1
            · exact Or.inl h1
            · rcases List.mem_cons.mp h1 with h2 | h2
              · exact Or.inl h2
              · exact Or.inr h2
          · intro y hy
            cases hy
        | some e =>
          simp only [rangeRecv]
          refine ⟨rfl, rfl, ?_, ?_, ?_, ?_, ?_⟩
          · intro y hy
            exact hv y (List.mem_cons_of_mem _ hy)
          · simp only [List.length_cons] at hlen
            dsimp only
            omega
          · intro h1
            cases h1
          · intro h1
            cases h1
          · intro y hy
            cases hy
            refine ⟨e, rfl, ?_⟩
            rcases hv (some e) (List.mem_cons_self _ _) with h1 | h1
            · exact Or.inl ⟨h1.1.symm, h1.2⟩
            · exact Or.inr ⟨h1.1.symm, h1.2⟩

/-- The invariant holds after every schedule of `getCpuLoad`. -/
theorem getCpuLoad_inv {F64 F32 : Type} (fo : FloatOps F64 F32) (p : Provider F64)
    (eu el : Option GoError)
    (hU : ∀ r : ResourceHandler F64 F32, ∃ r', cpuUsageTask p r = .done eu r')
    (hL : ∀ r : ResourceHandler F64 F32, ∃ r', cpuLoadsTask fo p r = .done el r')
    (r : ResourceHandler F64 F32) (sched : List CpuLoadEv) :
    CpuLoadInv eu el (getCpuLoad fo p r sched) :=
  foldl_invariant (CpuLoadState.step fo p) (CpuLoadInv eu el)
    (fun s ev hs => cpuLoadInv_step fo p eu el hU hL s ev hs) sched (CpuLoadState.start r)
    (cpuLoadInv_start eu el r)

/-- A schedule run after another one. -/
theorem getCpuLoad_append {F64 F32 : Type} (fo : FloatOps F64 F32) (p : Provider F64)
    (r : ResourceHandler F64 F32) (sched more : List CpuLoadEv) :
    getCpuLoad fo p r (sched ++ more) =
      more.foldl (CpuLoadState.step fo p) (getCpuLoad fo p r sched) := by
  unfold getCpuLoad
  rw [List.foldl_append]

/-- The snapshot fields owned by `getCpuLoad` are fixed by which goroutines have
run: a goroutine whose provider call succeeded with a value has stored it, any
other has left its field as it was. -/
theorem getCpuLoad_fields {F64 F32 : Type} (fo : FloatOps F64 F32) (p : Provider F64)
    (r : ResourceHandler F64 F32) (sched : List CpuLoadEv) :
    CpuFieldInv fo p r (getCpuLoad fo p r sched) := by
  refine foldl_invariant (CpuLoadState.step fo p) (CpuFieldInv fo p r) ?_ sched
    (CpuLoadState.start r) ⟨?_, ?_⟩
  · intro s ev hs
    obtain ⟨hu, hl⟩ := hs
    cases ev with
    | usage =>
      unfold CpuLoadState.step
      simp only
      split
      · exact ⟨hu, hl⟩
      · rename_i hg
        simp only [Bool.or_eq_true, not_or, Bool.not_eq_true] at hg
        rw [hg.2] at hu
        unfold cpuUsageTask
        constructor
        · cases hpt : p.percentTotal with
          | error err => simpa [hpt] using hu
          | ok usage =>
            cases usage with
            | nil => simpa [hpt] using hu
            | cons u us => simp
        · cases hpt : p.percentTotal with
          | error err => simpa using hl
          | ok usage =>
            cases usage with
            | nil => simpa using hl
            | cons u us => simpa using hl
    | loads =>
      unfold CpuLoadState.step
      simp only
      split
      · exact ⟨hu, hl⟩
      · rename_i hg
        simp only [Bool.or_eq_true, not_or, Bool.not_eq_true] at hg
        rw [hg.2] at hl
        unfold cpuLoadsTask
        constructor
        · cases hpt : p.percentPerCpu with
          | error err => simpa using hu
          | ok ls => simpa using hu
        · cases hpt : p.percentPerCpu with
          | error err => simpa [hpt] using hl
          | ok ls => simp
    | recv =>
      unfold CpuLoadState.step
      simp only
      repeat' split
      all_goals exact ⟨hu, hl⟩
  · simp only [CpuLoadState.start]
    cases p.percentTotal with
    | error err => rfl
    | ok usage => cases usage <;> simp
  · simp only [CpuLoadState.start]
    cases p.percentPerCpu with
    | error err => rfl
    | ok ls => simp

/-- A caller that has returned stays returned with the same value. -/
theorem cpuLoadStep_returned {F64 F32 : Type} (fo : FloatOps F64 F32) (p : Provider F64)
    (s : CpuLoadState F64 F32) (ev : CpuLoadEv) (x : Option GoError)
    (h : s.main = .returned x) : (s.step fo p ev).main = .returned x := by
  cases ev with
  | usage =>
    unfold CpuLoadState.step
    simp only
    repeat' split
    all_goals exact h
  | loads =>
    unfold CpuLoadState.step
    simp only
    repeat' split
    all_goals exact h
  | recv =>
    unfold CpuLoadState.step
    simp only
    split
    · exact h
    · split
      · exact h
      · rename_i hrun
        rw [hrun] at h
        cases h

/-- Two receives on a channel of at most two values, one of them the error `e`
and any other nil, make the caller return `e`. -/
theorem cpuLoadStep_recv_twice {F64 F32 : Type} (fo : FloatOps F64 F32) (p : Provider F64)
    (s : CpuLoadState F64 F32) (e : GoError)
    (hp : s.panicked = false) (hm : s.main = .running)
    (hmem : some e ∈ s.errch) (hvals : ∀ x ∈ s.errch, x = some e ∨ x = none)
    (hlen : s.errch.length ≤ 2) :
    ((s.step fo p .recv).step fo p .recv).main = .returned (some e) := by
  cases hch : s.errch with
  | nil => rw [hch] at hmem; cases hmem
  | cons a rest =>
    rw [hch] at hmem hvals hlen
    rcases hvals a (List.mem_cons_self _ _) with ha | ha
    · subst ha
      apply cpuLoadStep_returned
      simp [CpuLoadState.step, hp, hm, hch, rangeRecv]
    · subst ha
      cases rest with
      | nil => simp at hmem
      | cons b rest2 =>
        cases rest2 with
        | cons c rest3 => simp at hlen
        | nil =>
          have hb : b = some e := by simpa [eq_comm] using hmem
          subst hb
          simp [CpuLoadState.step, hp, hm, hch, rangeRecv]

/-- Once a goroutine of `getCpuLoad` has been scheduled it has run. -/
theorem cpuLoadStep_done_after {F64 F32 : Type} (fo : FloatOps F64 F32) (p : Provider F64)
    (s : CpuLoadState F64 F32) (hp : s.panicked = false) :
    (s.step fo p .usage).usageDone = true ∧
      (((s.step fo p .usage).panicked = false →
        ((s.step fo p .usage).step fo p .loads).usageDone = true ∧
        ((s.step fo p .usage).step fo p .loads).loadsDone = true)) := by
  constructor
  · unfold CpuLoadState.step
    simp only [hp, Bool.false_or]
    repeat' split
    all_goals first | rfl | assumption
  · intro hp2
    have h1 : (s.step fo p .usage).usageDone = true := by
      unfold CpuLoadState.step
      simp only [hp, Bool.false_or]
      repeat' split
      all_goals first | rfl | assumption
    generalize s.step fo p .usage = s1 at hp2 h1
    constructor
    · unfold CpuLoadState.step
      simp only [hp2, Bool.false_or]
      repeat' split
      all_goals exact h1
    · unfold CpuLoadState.step
      simp only [hp2, Bool.false_or]
      repeat' split
      all_goals first | rfl | assumption

/-- When exactly one goroutine of `getCpuLoad` ends with an error `e`, the
caller has returned `e` once both goroutines have run and it has tried two
receives, whatever was scheduled before. -/
theorem getCpuLoad_returns_failure {F64 F32 : Type} (fo : FloatOps F64 F32) (p : Provider F64)
    (eu el : Option GoError) (e : GoError)
    (hU : ∀ r : ResourceHandler F64 F32, ∃ r', cpuUsageTask p r = .done eu r')
    (hL : ∀ r : ResourceHandler F64 F32, ∃ r', cpuLoadsTask fo p r = .done el r')
    (hone : (eu = some e ∧ el = none) ∨ (eu = none ∧ el = some e))
    (r : ResourceHandler F64 F32) (sched : List CpuLoadEv) :
    (getCpuLoad fo p r (sched ++ [.usage, .loads, .recv, .recv])).main = .returned (some e) := by
  have h0 := getCpuLoad_inv fo p eu el hU hL r sched
  have h1 := cpuLoadInv_step fo p eu el hU hL _ .usage h0
  have h2 := cpuLoadInv_step fo p eu el hU hL _ .loads h1
  have hd := (cpuLoadStep_done_after fo p _ h0.noPanic).2 h1.noPanic
  rw [getCpuLoad_append]
  simp only [List.foldl_cons, List.foldl_nil]
  generalize ((getCpuLoad fo p r sched).step fo p .usage).step fo p .loads = s at h2 hd
  cases hm : s.main with
  | returned x =>
    obtain ⟨e', hx, he'⟩ := h2.ret x hm
    have hee : e' = e := by
      rcases hone with ⟨h3, h4⟩ | ⟨h3, h4⟩ <;> rcases he' with ⟨h5, _⟩ | ⟨h5, _⟩ <;> simp_all
    subst hee
    subst hx
    exact cpuLoadStep_returned fo p _ .recv _ (cpuLoadStep_returned fo p _ .recv _ hm)
  | running =>
    apply cpuLoadStep_recv_twice fo p s e h2.noPanic hm
    · rcases hone with ⟨h3, h4⟩ | ⟨h3, h4⟩
      · rcases h2.pendU hm hd.1 with h5 | h5
        · rw [h3] at h5; cases h5
        · rw [h3] at h5; exact h5
      · rcases h2.pendL hm hd.2 with h5 | h5
        · rw [h4] at h5; cases h5
        · rw [h4] at h5; exact h5
    · intro x hx
      rcases hone with ⟨h3, h4⟩ | ⟨h3, h4⟩ <;> rcases h2.vals x hx with ⟨h5, _⟩ | ⟨h5, _⟩ <;> simp_all
    · have := h2.len
      rw [hd.1, hd.2] at this
      simpa using this


/-- The first goroutine ends with the provider's error. -/
theorem cpuUsageTask_of_error {F64 F32 : Type} (p : Provider F64) (e : GoError)
    (h : p.percentTotal = .error e) (r : ResourceHandler F64 F32) :
    ∃ r', cpuUsageTask p r = .done (some e) r' := by
  unfold cpuUsageTask
  rw [h]
  exact ⟨_, rfl⟩

/-- The first goroutine ends with nil when the provider returns a value. -/
theorem cpuUsageTask_of_ok {F64 F32 : Type} (p : Provider F64) (u : F64) (us : List F64)
    (h : p.percentTotal = .ok (u :: us)) (r : ResourceHandler F64 F32) :
    ∃ r', cpuUsageTask p r = .done none r' := by
  unfold cpuUsageTask
  rw [h]
  exact ⟨_, rfl⟩

/-- The second goroutine ends with the provider's error. -/
theorem cpuLoadsTask_of_error {F64 F32 : Type} (fo : FloatOps F64 F32) (p : Provider F64)
    (e : GoError) (h : p.percentPerCpu = .error e) (r : ResourceHandler F64 F32) :
    ∃ r', cpuLoadsTask fo p r = .done (some e) r' := by
  unfold cpuLoadsTask
  rw [h]
  exact ⟨_, rfl⟩

/-- The second goroutine ends with nil when the provider returns a list. -/
theorem cpuLoadsTask_of_ok {F64 F32 : Type} (fo : FloatOps F64 F32) (p : Provider F64)
    (ls : List F64) (h : p.percentPerCpu = .ok ls) (r : ResourceHandler F64 F32) :
    ∃ r', cpuLoadsTask fo p r = .done none r' := by
  unfold cpuLoadsTask
  rw [h]
  exact ⟨_, rfl⟩

/-- C9 (getCpuLoad returns on success). When both provider calls succeed (the
aggregate call with at least one value), then under every schedule the caller
of `getCpuLoad` is still in its loop over `errch`: nothing panics, `errch` is
never closed and holds only nil values, so the loop neither ends nor returns;
the `t1` step of the dispatch loop leaves the dispatch goroutine blocked
inside `getCpuLoad`. -/
theorem getCpuLoad_blocks_on_success {F64 F32 : Type} (fo : FloatOps F64 F32)
    (p : Provider F64) (r : ResourceHandler F64 F32) (u : F64) (us ls : List F64)
    (hu : p.percentTotal = .ok (u :: us)) (hl : p.percentPerCpu = .ok ls)
    (sched : List CpuLoadEv) :
    (getCpuLoad fo p r sched).main = .running ∧
    (getCpuLoad fo p r sched).panicked = false ∧
    (getCpuLoad fo p r sched).closed = false ∧
    (∀ x ∈ (getCpuLoad fo p r sched).errch, x = none) ∧
    (∀ (now : Time) (s : RunState F64 F32), s.status = .selecting →
      (dispatch fo p now sched s .t1).status = .blockedInGetCpuLoad) := by
  have hinv : ∀ (r : ResourceHandler F64 F32) (sched : List CpuLoadEv),
      CpuLoadInv none none (getCpuLoad fo p r sched) := fun r sched =>
    getCpuLoad_inv fo p none none (cpuUsageTask_of_ok p u us hu) (cpuLoadsTask_of_ok fo p ls hl)
      r sched
  have hrun : ∀ (r : ResourceHandler F64 F32) (sched : List CpuLoadEv),
      (getCpuLoad fo p r sched).main = .running := by
    intro r sched
    cases hm : (getCpuLoad fo p r sched).main with
    | running => rfl
    | returned x =>
      obtain ⟨e, _, he⟩ := (hinv r sched).ret x hm
      rcases he with ⟨h1, _⟩ | ⟨h1, _⟩ <;> cases h1
  refine ⟨hrun r sched, (hinv r sched).noPanic, (hinv r sched).notClosed, ?_, ?_⟩
  · intro x hx
    rcases (hinv r sched).vals x hx with ⟨h1, _⟩ | ⟨h1, _⟩ <;> exact h1
  · intro now s hs
    unfold dispatch
    simp only [hs, (hinv s.r sched).noPanic, hrun s.r sched, Bool.false_eq_true, if_false]

/-- C9 at `healthyProvider`: both goroutines have run and the caller has
tried three receives. -/
theorem getCpuLoad_blocks_on_success_witness :
    healthyProvider.percentTotal = .ok [50] ∧
      healthyProvider.percentPerCpu = .ok [1 / 10, 1 / 2, 9 / 10] ∧
      (getCpuLoad exactFloat healthyProvider NewHandler
        [.usage, .loads, .recv, .recv, .recv]).main = .running :=
  ⟨rfl, rfl,
    (getCpuLoad_blocks_on_success exactFloat healthyProvider NewHandler 50 []
      [1 / 10, 1 / 2, 9 / 10] rfl rfl [.usage, .loads, .recv, .recv, .recv]).1⟩

/-- C4 as stated fails: with an aggregate call that succeeds with 50 and a
per-core call that fails, the aggregate goroutine running first, `getCpuLoad`
returns the error and `Loads.Cpu.Usage` has gone from 0 to 50. -/
theorem getCpuLoad_isolation_counterexample :
    (failingPerCpuProvider.percentTotal = .ok [50] ∧
      failingPerCpuProvider.percentPerCpu = .error "per-core call failed") ∧
    (getCpuLoad exactFloat failingPerCpuProvider NewHandler
      [.usage, .loads, .recv, .recv]).main = .returned (some "per-core call failed") ∧
    NewHandler.Loads.Cpu.Usage = 0 ∧
    (getCpuLoad exactFloat failingPerCpuProvider NewHandler
      [.usage, .loads, .recv, .recv]).r.Loads.Cpu.Usage = 50 ∧
    ¬ ((getCpuLoad exactFloat failingPerCpuProvider NewHandler
          [.usage, .loads, .recv, .recv]).r.Loads.Cpu.Usage = NewHandler.Loads.Cpu.Usage ∧
       (getCpuLoad exactFloat failingPerCpuProvider NewHandler
          [.usage, .loads, .recv, .recv]).r.Loads.Cpu.Loads = NewHandler.Loads.Cpu.Loads) := by
  refine ⟨⟨rfl, rfl⟩, rfl, rfl, rfl, ?_⟩
  intro h
  have h1 : (getCpuLoad exactFloat failingPerCpuProvider NewHandler
      [.usage, .loads, .recv, .recv]).r.Loads.Cpu.Usage = 50 := rfl
  have h2 : NewHandler.Loads.Cpu.Usage = 0 := rfl
  rw [h1, h2] at h
  exact absurd h.1 (by norm_num)

/-- C4, amended. When exactly one of the two provider calls of `getCpuLoad`
fails, with the error `e` (a succeeding aggregate call returning at least one
value), then under every schedule: nothing panics; the caller is in its loop
or has returned `e`, and has returned `e` once both goroutines have run and it
has tried two receives; the field of the failing call (`Usage` for the
aggregate call, `Loads` for the per-core call) has the value it had before the
call; and the field of the succeeding call holds the provider's new value once
its goroutine has run. -/
theorem getCpuLoad_one_failure {F64 F32 : Type} (fo : FloatOps F64 F32)
    (p : Provider F64) (r : ResourceHandler F64 F32) (e : GoError) (sched : List CpuLoadEv)
    (hone : (p.percentTotal = .error e ∧ ∃ ls, p.percentPerCpu = .ok ls) ∨
      ((∃ u us, p.percentTotal = .ok (u :: us)) ∧ p.percentPerCpu = .error e)) :
    (getCpuLoad fo p r sched).panicked = false ∧
    ((getCpuLoad fo p r sched).main = .running ∨
      (getCpuLoad fo p r sched).main = .returned (some e)) ∧
    (getCpuLoad fo p r (sched ++ [.usage, .loads, .recv, .recv])).main = .returned (some e) ∧
    (p.percentTotal = .error e →
      (getCpuLoad fo p r sched).r.Loads.Cpu.Usage = r.Loads.Cpu.Usage) ∧
    (p.percentPerCpu = .error e →
      (getCpuLoad fo p r sched).r.Loads.Cpu.Loads = r.Loads.Cpu.Loads) ∧
    (∀ u us, p.percentTotal = .ok (u :: us) → (getCpuLoad fo p r sched).usageDone = true →
      (getCpuLoad fo p r sched).r.Loads.Cpu.Usage = u) ∧
    (∀ ls, p.percentPerCpu = .ok ls → (getCpuLoad fo p r sched).loadsDone = true →
      (getCpuLoad fo p r sched).r.Loads.Cpu.Loads = formatCores fo ls) ∧
    (getCpuLoad fo p r (sched ++ [.usage, .loads, .recv, .recv])).usageDone = true ∧
    (getCpuLoad fo p r (sched ++ [.usage, .loads, .recv, .recv])).loadsDone = true := by
  have hf := getCpuLoad_fields fo p r sched
  obtain ⟨eu, el, hU, hL, hcase⟩ : ∃ eu el : Option GoError,
      (∀ r : ResourceHandler F64 F32, ∃ r', cpuUsageTask p r = .done eu r') ∧
      (∀ r : ResourceHandler F64 F32, ∃ r', cpuLoadsTask fo p r = .done el r') ∧
      ((eu = some e ∧ el = none) ∨ (eu = none ∧ el = some e)) := by
    rcases hone with ⟨h1, ls, h2⟩ | ⟨⟨u, us, h1⟩, h2⟩
    · exact ⟨some e, none, cpuUsageTask_of_error p e h1, cpuLoadsTask_of_ok fo p ls h2,
        Or.inl ⟨rfl, rfl⟩⟩
    · exact ⟨none, some e, cpuUsageTask_of_ok p u us h1, cpuLoadsTask_of_error fo p e h2,
        Or.inr ⟨rfl, rfl⟩⟩
  have hinv := getCpuLoad_inv fo p eu el hU hL r sched
  have hdone : (getCpuLoad fo p r (sched ++ [.usage, .loads, .recv, .recv])).usageDone = true ∧
      (getCpuLoad fo p r (sched ++ [.usage, .loads, .recv, .recv])).loadsDone = true := by
    have h1 := cpuLoadInv_step fo p eu el hU hL _ .usage hinv
    have hd := (cpuLoadStep_done_after fo p _ hinv.noPanic).2 h1.noPanic
    rw [getCpuLoad_append]
    simp only [List.foldl_cons, List.foldl_nil]
    generalize ((getCpuLoad fo p r sched).step fo p .usage).step fo p .loads = s at hd
    have hkeep : ∀ s : CpuLoadState F64 F32,
        (s.step fo p .recv).usageDone = s.usageDone ∧
        (s.step fo p .recv).loadsDone = s.loadsDone := by
      intro s
      unfold CpuLoadState.step
      simp only
      constructor <;> repeat' split
      all_goals rfl
    rw [(hkeep _).1, (hkeep _).2, (hkeep _).1, (hkeep _).2]
    exact hd
  refine ⟨hinv.noPanic, ?_, getCpuLoad_returns_failure fo p eu el e hU hL hcase r sched,
    ?_, ?_, ?_, ?_, hdone.1, hdone.2⟩
  · cases hm : (getCpuLoad fo p r sched).main with
    | running => exact Or.inl rfl
    | returned x =>
      obtain ⟨e', hx, he'⟩ := hinv.ret x hm
      have hee : e' = e := by
        rcases hcase with ⟨h3, h4⟩ | ⟨h3, h4⟩ <;> rcases he' with ⟨h5, _⟩ | ⟨h5, _⟩ <;> simp_all
      rw [hx, hee]
      exact Or.inr rfl
  · intro h
    have := hf.usage
    rw [h] at this
    exact this
  · intro h
    have := hf.loads
    rw [h] at this
    exact this
  · intro u us h hd
    have := hf.usage
    rw [h, hd] at this
    simpa using this
  · intro ls h hd
    have := hf.loads
    rw [h, hd] at this
    simpa using this

/-- C4, amended, at a provider whose per-core call fails: the caller returns
the error and `Loads.Cpu.Loads` is as before. -/
theorem getCpuLoad_one_failure_witness :
    ((failingPerCpuProvider.percentTotal = .error "per-core call failed" ∧
        ∃ ls, failingPerCpuProvider.percentPerCpu = .ok ls) ∨
      ((∃ u us, failingPerCpuProvider.percentTotal = .ok (u :: us)) ∧
        failingPerCpuProvider.percentPerCpu = .error "per-core call failed")) ∧
      (getCpuLoad exactFloat failingPerCpuProvider NewHandler
        ([.loads, .recv] ++ [.usage, .loads, .recv, .recv])).main
        = .returned (some "per-core call failed") :=
  ⟨Or.inr ⟨⟨50, [], rfl⟩, rfl⟩,
    (getCpuLoad_one_failure exactFloat failingPerCpuProvider NewHandler "per-core call failed"
      [.loads, .recv] (Or.inr ⟨⟨50, [], rfl⟩, rfl⟩)).2.2.1⟩

/-! ## Start-up: error reporting -/

/-- Each start-up task ends with the error of its provider call, unless the
CPU information list is empty. -/
theorem initTask_done {F64 F32 : Type} (p : Provider F64)
    (hinfo : p.cpuInformation ≠ .ok []) (id : Nat) (r : ResourceHandler F64 F32) (hid : id < 4) :
    ∃ r', initTask p id r = .done (taskError p id) r' := by
  have h : id = 0 ∨ id = 1 ∨ id = 2 ∨ id = 3 := by omega
  rcases h with h | h | h | h <;> subst h
  · unfold initTask getPlatformInformation taskError exceptError
    cases p.hostInfo <;> exact ⟨_, rfl⟩
  · unfold initTask getCpuCoreCount taskError exceptError
    cases p.countsPhysical <;> exact ⟨_, rfl⟩
  · unfold initTask getCpuThreadCount taskError exceptError
    cases p.countsLogical <;> exact ⟨_, rfl⟩
  · unfold initTask getCpuInformation taskError exceptError
    cases hc : p.cpuInformation with
    | error err => exact ⟨_, rfl⟩
    | ok l =>
      cases l with
      | nil => exact absurd hc hinfo
      | cons c cs => exact ⟨_, rfl⟩

/-- The invariant holds when `init` starts. -/
theorem initInv_start {F64 F32 : Type} (p : Provider F64) (r : ResourceHandler F64 F32) :
    InitInv p (InitState.start r) := by
  refine ⟨rfl, ?_, ?_, ?_, ?_, ?_, ?_, ?_⟩ <;> simp [InitState.start]

/-- Every event of `init` keeps the invariant. -/
theorem initInv_step {F64 F32 : Type} (p : Provider F64) (hinfo : p.cpuInformation ≠ .ok [])
    (s : InitState F64 F32) (ev : InitEv) (h : InitInv p s) : InitInv p (s.step p ev) := by
  obtain ⟨hp, hsf, hsa, hfl, hca, hbuf, hrs, hrn⟩ := h
  cases ev with
  | task id =>
    unfold InitState.step
    simp only
    split
    · exact ⟨hp, hsf, hsa, hfl, hca, hbuf, hrs, hrn⟩
    · rename_i hg
      simp only [Bool.or_eq_true, not_or, Bool.not_eq_true, decide_eq_true_eq, not_le] at hg
      obtain ⟨⟨_, hnf⟩, hid⟩ := hg
      have hnot : id ∉ s.finished := by
        intro hmem
        have : s.finished.contains id = true := List.elem_iff.mpr hmem
        rw [hnf] at this
        cases this
      obtain ⟨r', hr'⟩ := initTask_done p hinfo id s.r hid
      rw [hr']
      cases hte : taskError p id with
      | none =>
        refine ⟨hp, ?_, ?_, ?_, ?_, hbuf, hrs, hrn⟩
        · intro e he
          obtain ⟨i, hi, hie⟩ := hsf e he
          exact ⟨i, List.mem_cons_of_mem _ hi, hie⟩
        · intro i hi e hie
          rcases List.mem_cons.mp hi with h1 | h1
          · subst h1
            rw [hte] at hie
            cases hie
          · exact hsa i h1 e hie
        · intro i hi
          rcases List.mem_cons.mp hi with h1 | h1
          · subst h1
            exact hid
          · exact hfl i h1
        · intro hc i hi
          exact List.mem_cons_of_mem _ (hca hc i hi)
      | some err =>
        refine ⟨hp, ?_, ?_, ?_, ?_, ?_, ?_, ?_⟩
        · intro e he
          rcases List.mem_append.mp he with h1 | h1
          · obtain ⟨i, hi, hie⟩ := hsf e h1
            exact ⟨i, List.mem_cons_of_mem _ hi, hie⟩
          · have : e = err := by simpa using h1
            subst this
            exact ⟨id, List.mem_cons_self _ _, hte⟩
        · intro i hi e hie
          rcases List.mem_cons.mp hi with h1 | h1
          · subst h1
            rw [hte] at hie
            cases hie
            exact List.mem_append_right _ (List.mem_singleton_self _)
          · exact List.mem_append_left _ (hsa i h1 e hie)
        · intro i hi
          rcases List.mem_cons.mp hi with h1 | h1
          · subst h1
            exact hid
          · exact hfl i h1
        · intro hc i hi
          exact List.mem_cons_of_mem _ (hca hc i hi)
        · intro hm
          show s.errors ++ [some err] = (s.sent ++ [err]).map some
          rw [hbuf hm]
          simp
        · intro e hm
          have h1 := hrs e hm
          show (s.sent ++ [err]).head? = some e
          cases hs : s.sent with
          | nil => rw [hs] at h1; cases h1
          | cons a rest => rw [hs] at h1; simpa using h1
        · intro hm
          exact absurd (hca (hrn hm).1 id hid) hnot
  | closer =>
    unfold InitState.step
    simp only
    split
    · exact ⟨hp, hsf, hsa, hfl, hca, hbuf, hrs, hrn⟩
    · rename_i hg
      simp only [Bool.or_eq_true, not_or, Bool.not_eq_true, Bool.not_eq_true', Bool.not_eq_false] at hg
      refine ⟨hp, hsf, hsa, hfl, ?_, hbuf, hrs, ?_⟩
      · intro _ i hi
        have hall := hg.2
        simp only [InitState.allDone, List.all_eq_true, List.mem_range] at hall
        exact List.elem_iff.mp (hall i hi)
      · intro hm
        exact ⟨rfl, (hrn hm).2⟩
  | recv =>
    unfold InitState.step
    simp only [hp, Bool.false_eq_true, if_false]
    cases hm : s.main with
    | returned x => simpa [hm] using ⟨hp, hsf, hsa, hfl, hca, hbuf, hrs, hrn⟩
    | running =>
      simp only
      have hb := hbuf hm
      obtain hs | ⟨a, rest, hs⟩ : s.sent = [] ∨ ∃ a rest, s.sent = a :: rest := by
        cases s.sent with
        | nil => exact Or.inl rfl
        | cons a rest => exact Or.inr ⟨a, rest, rfl⟩
      · rw [hs] at hb
        simp only [List.map_nil] at hb
        rw [hb]
        obtain hc | hc : s.closed = false ∨ s.closed = true := by
          cases s.closed
          · exact Or.inl rfl
          · exact Or.inr rfl
        · rw [hc]
          simp only [rangeRecv, Bool.false_eq_true, if_false]
          refine ⟨rfl, hsf, hsa, hfl, ?_, ?_, ?_, ?_⟩
          · intro h1; cases h1
          · intro _; show [] = s.sent.map some; rw [hs]; rfl
          · intro e h1; cases h1
          · intro h1; cases h1
        · rw [hc]
          simp only [rangeRecv, if_true]
          refine ⟨rfl, hsf, hsa, hfl, ?_, ?_, ?_, ?_⟩
          · intro _; exact hca hc
          · intro h1; cases h1
          · intro e h1; cases h1
          · intro _; exact ⟨rfl, hs⟩
      · rw [hs] at hb
        simp only [List.map_cons] at hb
        rw [hb]
        simp only [rangeRecv]
        refine ⟨rfl, hsf, hsa, hfl, hca, ?_, ?_, ?_⟩
        · intro h1; cases h1
        · intro e h1
          cases h1
          show s.sent.head? = some a
          rw [hs]
          rfl
        · intro h1; cases h1

/-- The invariant holds after every schedule of `init`. -/
theorem init_inv {F64 F32 : Type} (p : Provider F64) (hinfo : p.cpuInformation ≠ .ok [])
    (r : ResourceHandler F64 F32) (sched : List InitEv) : InitInv p (init p r sched) :=
  foldl_invariant (InitState.step p) (InitInv p) (fun s ev hs => initInv_step p hinfo s ev hs)
    sched (InitState.start r) (initInv_start p r)

/-- A schedule of `init` run after another one. -/
theorem init_append {F64 F32 : Type} (p : Provider F64) (r : ResourceHandler F64 F32)
    (sched more : List InitEv) :
    init p r (sched ++ more) = more.foldl (InitState.step p) (init p r sched) := by
  unfold init
  rw [List.foldl_append]

/-- A finished task stays finished. -/
theorem initStep_finished_mono {F64 F32 : Type} (p : Provider F64) (s : InitState F64 F32)
    (ev : InitEv) (id : Nat) (h : id ∈ s.finished) : id ∈ (s.step p ev).finished := by
  cases ev with
  | task i =>
    unfold InitState.step
    simp only
    repeat' split
    all_goals first | exact h | exact List.mem_cons_of_mem _ h
  | closer =>
    unfold InitState.step
    simp only
    repeat' split
    all_goals exact h
  | recv =>
    unfold InitState.step
    simp only
    repeat' split
    all_goals exact h

/-- A task that has been scheduled is finished. -/
theorem initStep_finished_after {F64 F32 : Type} (p : Provider F64)
    (hinfo : p.cpuInformation ≠ .ok []) (s : InitState F64 F32) (id : Nat) (hid : id < 4)
    (hp : s.panicked = false) : id ∈ (s.step p (.task id)).finished := by
  unfold InitState.step
  simp only [hp, Bool.false_or]
  split
  · rename_i hg
    simp only [Bool.or_eq_true, decide_eq_true_eq] at hg
    rcases hg with hg | hg
    · exact List.elem_iff.mp hg
    · omega
  · obtain ⟨r', hr'⟩ := initTask_done p hinfo id s.r hid
    rw [hr']
    cases taskError p id with
    | none => exact List.mem_cons_self _ _
    | some err => exact List.mem_cons_self _ _

/-- Once the four tasks are finished the closing goroutine closes `errors`. -/
theorem initStep_closed_after {F64 F32 : Type} (p : Provider F64) (s : InitState F64 F32)
    (hp : s.panicked = false) (hall : ∀ id, id < 4 → id ∈ s.finished) :
    (s.step p .closer).closed = true := by
  have hdone : s.allDone = true := by
    simp only [InitState.allDone, List.all_eq_true, List.mem_range]
    intro id hid
    exact List.elem_iff.mpr (hall id hid)
  unfold InitState.step
  simp only [hp, hdone, Bool.false_or, Bool.not_true, Bool.or_false]
  split
  · assumption
  · rfl

/-- A receive on the closed channel makes the caller return. -/
theorem initStep_returned_after {F64 F32 : Type} (p : Provider F64) (s : InitState F64 F32)
    (hinv : InitInv p s) (hc : s.closed = true) :
    ∃ res, (s.step p .recv).main = .returned res := by
  unfold InitState.step
  simp only [hinv.noPanic, Bool.false_eq_true, if_false]
  cases hm : s.main with
  | returned x => exact ⟨x, hm⟩
  | running =>
    simp only [hinv.buf hm, hc]
    cases s.sent with
    | nil => exact ⟨none, rfl⟩
    | cons a rest => exact ⟨some a, rfl⟩

/-- Error reporting of `init` away from the panic. When each of the four
start-up tasks has an outcome (none of them panics), each task ends with the error of its
provider call, nil or not, and under every schedule: `init` has
returned once the four tasks and the closing goroutine have run and the caller
has tried a receive; and whenever it has returned, it has returned a non-nil
error if and only if at least one task failed, that error being the first one
sent on `errors` and the error of a failing task; so it returns nil when no
task fails. -/
theorem init_error_reporting {F64 F32 : Type} (p : Provider F64)
    (r : ResourceHandler F64 F32) (sched : List InitEv)
    (hout : ∀ id, id < 4 → initTask p id r ≠ .panicked) :
    (∀ (id : Nat) (r : ResourceHandler F64 F32), id < 4 →
      ∃ r', initTask p id r = .done (taskError p id) r') ∧
    (∃ res, (init p r (sched ++ [.task 0, .task 1, .task 2, .task 3, .closer, .recv])).main
      = .returned res) ∧
    (∀ res, (init p r sched).main = .returned res →
      (res ≠ none ↔ ∃ id, id < 4 ∧ taskError p id ≠ none) ∧
      (∀ e, res = some e →
        (init p r sched).sent.head? = some e ∧ ∃ id, id < 4 ∧ taskError p id = some e)) := by
  have hinfo : p.cpuInformation ≠ .ok [] := by
    intro h
    apply hout 3 (by decide)
    unfold initTask getCpuInformation
    rw [h]
  refine ⟨fun id r hid => initTask_done p hinfo id r hid, ?_, ?_⟩
  · have h0 := init_inv p hinfo r sched
    rw [init_append]
    simp only [List.foldl_cons, List.foldl_nil]
    generalize init p r sched = s0 at h0
    have h1 := initInv_step p hinfo _ (.task 0) h0
    have h2 := initInv_step p hinfo _ (.task 1) h1
    have h3 := initInv_step p hinfo _ (.task 2) h2
    have h4 := initInv_step p hinfo _ (.task 3) h3
    have h5 := initInv_step p hinfo _ .closer h4
    have f0 := initStep_finished_after p hinfo s0 0 (by decide) h0.noPanic
    have f1 := initStep_finished_after p hinfo _ 1 (by decide) h1.noPanic
    have f2 := initStep_finished_after p hinfo _ 2 (by decide) h2.noPanic
    have f3 := initStep_finished_after p hinfo _ 3 (by decide) h3.noPanic
    have f0' := initStep_finished_mono p _ (.task 3) 0
      (initStep_finished_mono p _ (.task 2) 0 (initStep_finished_mono p _ (.task 1) 0 f0))
    have f1' := initStep_finished_mono p _ (.task 3) 1 (initStep_finished_mono p _ (.task 2) 1 f1)
    have f2' := initStep_finished_mono p _ (.task 3) 2 f2
    apply initStep_returned_after p _ h5
    apply initStep_closed_after p _ h4.noPanic
    intro id hid
    have h : id = 0 ∨ id = 1 ∨ id = 2 ∨ id = 3 := by omega
    rcases h with h | h | h | h <;> subst h <;> assumption
  · intro res hres
    have hinv := init_inv p hinfo r sched
    cases res with
    | none =>
      constructor
      · constructor
        · intro h; exact absurd rfl h
        · rintro ⟨id, hid, hne⟩
          obtain ⟨hc, hs⟩ := hinv.retNone hres
          cases hte : taskError p id with
          | none => exact absurd hte hne
          | some e =>
            have := hinv.sentAll id (hinv.closedAll hc id hid) e hte
            rw [hs] at this
            cases this
      · intro e he; cases he
    | some err =>
      have hhead := hinv.retSome err hres
      have hmem : err ∈ (init p r sched).sent := by
        cases hs : (init p r sched).sent with
        | nil => rw [hs] at hhead; cases hhead
        | cons a rest =>
          rw [hs] at hhead
          have : a = err := by simpa using hhead
          rw [this]
          exact List.mem_cons_self _ _
      obtain ⟨id, hid, hte⟩ := hinv.sentFrom err hmem
      constructor
      · constructor
        · intro _
          exact ⟨id, hinv.finLt id hid, by rw [hte]; exact Option.some_ne_none _⟩
        · intro _
          exact Option.some_ne_none _
      · intro e he
        cases he
        exact ⟨hhead, id, hinv.finLt id hid, hte⟩

/-- The error reporting of `init` at a provider whose core-count and
thread-count calls fail, the thread-count task running first: `init` returns, and what it returns is the
error of the thread-count call. -/
theorem init_error_reporting_witness :
    (∀ id, id < 4 → initTask failingCountsProvider id NewHandler ≠ .panicked) ∧
      (∃ res, (init failingCountsProvider NewHandler
        ([.task 2, .task 1] ++ [.task 0, .task 1, .task 2, .task 3, .closer, .recv])).main
        = .returned res) ∧
      (init failingCountsProvider NewHandler
        ([.task 2, .task 1] ++ [.task 0, .task 1, .task 2, .task 3, .closer, .recv])).main
        = .returned (some "thread count failed") :=
  have hout : ∀ id, id < 4 → initTask failingCountsProvider id NewHandler ≠ .panicked := by
    intro id hid
    have h : id = 0 ∨ id = 1 ∨ id = 2 ∨ id = 3 := by omega
    rcases h with h | h | h | h <;> subst h <;> simp [initTask, getPlatformInformation,
      getCpuCoreCount, getCpuThreadCount, getCpuInformation, failingCountsProvider,
      healthyProvider]
  ⟨hout, (init_error_reporting failingCountsProvider NewHandler [.task 2, .task 1] hout).2.1, rfl⟩

/-! ## Start-up: the empty CPU information list -/

/-- With an empty CPU information list and the three other calls succeeding,
the tasks 0, 1 and 2 end with nil. -/
theorem initTask_ok_of_lt_three {F64 F32 : Type} (p : Provider F64)
    (h0 : ∃ x, p.hostInfo = .ok x) (h1 : ∃ x, p.countsPhysical = .ok x)
    (h2 : ∃ x, p.countsLogical = .ok x) (id : Nat) (r : ResourceHandler F64 F32)
    (hid : id < 3) : ∃ r', initTask p id r = .done none r' := by
  obtain ⟨x0, h0⟩ := h0
  obtain ⟨x1, h1⟩ := h1
  obtain ⟨x2, h2⟩ := h2
  have h : id = 0 ∨ id = 1 ∨ id = 2 := by omega
  rcases h with h | h | h <;> subst h
  · unfold initTask getPlatformInformation
    rw [h0]
    exact ⟨_, rfl⟩
  · unfold initTask getCpuCoreCount
    rw [h1]
    exact ⟨_, rfl⟩
  · unfold initTask getCpuThreadCount
    rw [h2]
    exact ⟨_, rfl⟩

/-- With an empty CPU information list and the three other calls succeeding,
every event of `init` leaves `errors` open and empty, task 3 unfinished and
the caller in its loop. -/
theorem initStep_empty_info {F64 F32 : Type} (p : Provider F64)
    (h0 : ∃ x, p.hostInfo = .ok x) (h1 : ∃ x, p.countsPhysical = .ok x)
    (h2 : ∃ x, p.countsLogical = .ok x) (h3 : p.cpuInformation = .ok [])
    (s : InitState F64 F32) (ev : InitEv)
    (h : s.closed = false ∧ 3 ∉ s.finished ∧ s.errors = [] ∧ s.main = .running) :
    (s.step p ev).closed = false ∧ 3 ∉ (s.step p ev).finished ∧
      (s.step p ev).errors = [] ∧ (s.step p ev).main = .running := by
  obtain ⟨hc, hf, he, hm⟩ := h
  cases ev with
  | task id =>
    unfold InitState.step
    simp only
    split
    · exact ⟨hc, hf, he, hm⟩
    · rename_i hg
      simp only [Bool.or_eq_true, not_or, Bool.not_eq_true, decide_eq_true_eq, not_le] at hg
      obtain ⟨_, hid⟩ := hg
      by_cases h3id : id = 3
      · subst h3id
        have hpan : initTask p 3 s.r = .panicked := by
          unfold initTask getCpuInformation
          rw [h3]
        rw [hpan]
        exact ⟨hc, hf, he, hm⟩
      · obtain ⟨r', hr'⟩ := initTask_ok_of_lt_three p h0 h1 h2 id s.r (by omega)
        rw [hr']
        refine ⟨hc, ?_, he, hm⟩
        intro hmem
        rcases List.mem_cons.mp hmem with h4 | h4
        · exact h3id h4.symm
        · exact hf h4
  | closer =>
    have hnd : s.allDone = false := by
      cases hd : s.allDone with
      | false => rfl
      | true =>
        simp only [InitState.allDone, List.all_eq_true, List.mem_range] at hd
        exact absurd (List.elem_iff.mp (hd 3 (by decide))) hf
    unfold InitState.step
    simp only [hnd, Bool.not_false, Bool.or_true, if_true]
    exact ⟨hc, hf, he, hm⟩
  | recv =>
    unfold InitState.step
    simp only
    split
    · exact ⟨hc, hf, he, hm⟩
    · simp only [hm, he, hc, rangeRecv, Bool.false_eq_true, if_false]
      exact ⟨trivial, hf, trivial, trivial⟩

/-- C5 (initialization error reporting), at a provider whose four calls all
return a nil error, the CPU information list being empty: no task fails, yet
under every schedule the caller of `init` is still in its loop over `errors`,
so `init` returns neither nil nor an error; once task 3 has run the process
has panicked. -/
theorem init_no_failure_no_return :
    (List.range 4).map (taskError emptyInfoProvider) = [none, none, none, none] ∧
    (∀ (r : ResourceHandler ℚ ℚ) (sched : List InitEv),
      (init emptyInfoProvider r sched).main = .running) ∧
    (init emptyInfoProvider NewHandler
      [.task 0, .task 1, .task 2, .task 3, .closer, .recv]).panicked = true ∧
    (init emptyInfoProvider NewHandler
      [.task 3, .task 0, .task 1, .task 2, .closer, .recv]).panicked = true := by
  refine ⟨rfl, ?_, rfl, rfl⟩
  intro r sched
  exact (foldl_invariant (InitState.step emptyInfoProvider)
    (fun s => s.closed = false ∧ 3 ∉ s.finished ∧ s.errors = [] ∧ s.main = .running)
    (fun s ev hs => initStep_empty_info emptyInfoProvider ⟨_, rfl⟩ ⟨_, rfl⟩ ⟨_, rfl⟩ rfl s ev hs)
    sched (InitState.start r) ⟨rfl, by simp [InitState.start], rfl, rfl⟩).2.2.2

end Resourcer
